import Mathlib

/-!
# wakatime-cli: backoff guard, authorization header, log file parameters, sanitization

A shallow embedding of `pkg/backoff/backoff.go`, `pkg/api/auth.go` and
`cmd/legacy/logfile/logfile.go`, and a model of the sanitization of
`pkg/heartbeat`, of which only the tests (`sanitize_test.go`) are at hand.

Conventions of the embedding:

* `time.Time` is an instant counted in nanoseconds from the zero time
  (January 1, year 1, 00:00:00 UTC), so `IsZero` is "the count is 0".
  The count is an unbounded integer; the range limit of `time.Time` is
  not part of the model.
* `time.Duration` is a signed 64-bit count of nanoseconds; products of
  durations wrap in two's complement (`wrapInt64`).
* The retry counter (Go `int`) is a signed 64-bit integer, as on the 64-bit
  platforms: its increment wraps in two's complement (`intAdd`).
* Effects are explicit: the outside world is a value of a type `W` that is
  threaded through every call, and the guard reports the calls it makes to
  its collaborators (the wrapped operation and the settings store) as a
  list of events. Log output is not part of the model.
-/

namespace Wakatime

/-! ## Values shared by the packages -/

/-- A slice: `none` is the nil slice, `some xs` a slice holding `xs`. -/
abbrev Slice (α : Type) : Type := Option (List α)

/-- A Go `error` value, by dynamic type: `api.Err`, the string errors made by
`errors.New` and `fmt.Errorf`, and any other error type, named by `kind`. -/
inductive GoError where
  | apiErr (msg : String)
  | errorString (msg : String)
  | other (kind : String) (msg : String)
deriving DecidableEq, Repr

/-- The message of an error (its `Error()` method). -/
def GoError.Error : GoError → String
  | .apiErr msg => msg
  | .errorString msg => msg
  | .other _ msg => msg

namespace Backoff

/-! ## Time -/

/-- An instant: nanoseconds since the zero time. -/
structure Time where
  ns : Int
deriving DecidableEq, Repr

/-- One second, in nanoseconds (`time.Second`). -/
def Second : Int := 1000000000

/-- The zero instant (`time.Time{}`). -/
def Time.zero : Time := ⟨0⟩

/-- Whether the instant is the zero time (`Time.IsZero`). -/
def Time.IsZero (t : Time) : Bool := t.ns == 0

/-- The instant `t + d` (`Time.Add`). -/
def Time.Add (t : Time) (d : Int) : Time := ⟨t.ns + d⟩

/-- Whether `t` is strictly before `u` (`Time.Before`). -/
def Time.Before (t u : Time) : Bool := decide (t.ns < u.ns)

/-! ## Constants and arithmetic of `shouldBackoff` -/

/-- Total seconds a backoff will last. -/
def resetAfter : Int := 3600

/-- Total seconds to be multiplied by. -/
def factor : Int := 15

/-- Two's complement wrap of an integer to the signed 64-bit range. -/
def wrapInt64 (x : Int) : Int := (x + 2 ^ 63) % 2 ^ 64 - 2 ^ 63

/-- The sum `a + b` of two `int` values: it wraps around at the ends of the
64-bit range. -/
def intAdd (a b : Int) : Int := wrapInt64 (a + b)

/-- The float64 `float64(factor) * math.Pow(2, float64(retries))` for
`retries ≥ 1`. The product `15 * 2^retries` has four significant bits, so it
is computed exactly as long as it is finite, which is up to `retries = 1020`;
from there on the product is `+Inf`, rendered as `none`. -/
def backoffFloat (retries : Int) : Option Int :=
  if retries ≤ 1020 then some (factor * 2 ^ retries.toNat) else none

/-- What the platform makes of converting a float64 to int64. -/
structure Platform where
  /-- The int64 produced for a float64 that int64 cannot represent (the
  language leaves it to the implementation); `none` is `+Inf`. -/
  convOverflow : Option Int → Int

/-- The conversion `time.Duration(f)` of a non-negative integral float64:
the value itself when int64 holds it, the platform's choice otherwise. -/
def durationOfFloat (p : Platform) (f : Option Int) : Int :=
  match f with
  | some x => if x < 2 ^ 63 then x else wrapInt64 (p.convOverflow f)
  | none => wrapInt64 (p.convOverflow f)

/-- The `duration` of `shouldBackoff`:
`time.Duration(float64(factor)*math.Pow(2, float64(retries))) * time.Second`. -/
def backoffDuration (p : Platform) (retries : Int) : Int :=
  wrapInt64 (durationOfFloat p (backoffFloat retries) * Second)

/-- The function `shouldBackoff(retries, at)`, with the reading of the clock
(`time.Now()`) passed in as `now`. -/
def shouldBackoff (p : Platform) (now : Time) (retries : Int) (atTime : Time) : Bool :=
  if retries < 1 ∨ atTime.IsZero = true then
    false
  else
    let duration := backoffDuration p retries
    now.Before (atTime.Add duration) && now.Before (atTime.Add (resetAfter * Second))

/-! ## The settings store -/

/-- A key of an ini file (`ini.Key`). -/
structure Key where
  Section : String
  Name : String
deriving DecidableEq, Repr

/-- A `map[ini.Key]string`, as an association list with one entry per key. -/
abbrev KeyMap : Type := List (Key × String)

/-- The assignment `m[k] = v`: replaces the value of an existing key, adds
the key otherwise. -/
def KeyMap.assign : KeyMap → Key → String → KeyMap
  | [], k, v => [(k, v)]
  | (k0, v0) :: m, k, v =>
    if k0 = k then (k, v) :: m else (k0, v0) :: KeyMap.assign m k v

/-- The value `m[k]`, if the key is present. -/
def KeyMap.find : KeyMap → Key → Option String
  | [], _ => none
  | (k0, v0) :: m, k => if k0 = k then some v0 else KeyMap.find m k

/-- The key `internal.backoff_retries`. -/
def keyRetries : Key := ⟨"internal", "backoff_retries"⟩

/-- The key `internal.backoff_at`. -/
def keyAt : Key := ⟨"internal", "backoff_at"⟩

/-- The decimal text of an integer (`strconv.Itoa`). -/
def Itoa (n : Int) : String := toString n

/-- The settings handle `c.V` together with the packages `config` and `ini`
behind it, which are declared outside the sources at hand: each call is a
function of the world `W` and may fail. -/
structure Store (W : Type) where
  /-- The call `config.InternalFilePath(v)`: the path of the internal ini file, or an error. -/
  InternalFilePath : W → Except GoError String
  /-- The call `ini.SetKeys(file, keys)`: an error or nil, and the world it leaves. -/
  SetKeys : String → KeyMap → W → Option GoError × W

/-- What the guard needs from the runtime. -/
structure Runtime (W : Type) where
  /-- The float64 to int64 conversion of the platform. -/
  platform : Platform
  /-- The reading of the clock (`time.Now()`) in a world. -/
  Now : W → Time
  /-- The text `at.Format(config.DateFormat)`; the layout constant is declared
  outside the sources at hand. -/
  FormatDate : Time → String

/-- Backoff data (`Config`). -/
structure Config (W : Type) where
  /-- The time when the first failure happened. -/
  At : Time
  /-- The number of attempts to connect. -/
  Retries : Int
  /-- The settings handle. -/
  V : Store W

/-- A call the guard makes to one of its collaborators. -/
inductive Event (H : Type) where
  /-- The wrapped operation was invoked with this batch. -/
  | next (hh : Slice H)
  /-- The store was asked to write these keys to this file. -/
  | setKeys (file : String) (keys : KeyMap)
deriving DecidableEq, Repr

/-- A `heartbeat.Handle`: from a batch to results and an error, acting on the world. -/
abbrev Handle (W H R : Type) : Type := Slice H → W → (Slice R × Option GoError) × W

/-- A run of the guarded handle: the two values it returns, the world it
leaves and the calls it made, in order. -/
structure Outcome (W H R : Type) where
  results : Slice R
  err : Option GoError
  world : W
  trace : List (Event H)

/-- The function `updateBackoffSettings(v, retries, at)`: the error it returns,
the world it leaves and the calls it made. -/
def updateBackoffSettings {W H : Type} (rt : Runtime W) (v : Store W) (retries : Int)
    (atTime : Time) (w : W) : Option GoError × W × List (Event H) :=
  let keys : KeyMap := [(keyRetries, Itoa retries), (keyAt, "")]
  let keys : KeyMap :=
    if atTime.IsZero = false then keys.assign keyAt (rt.FormatDate atTime) else keys
  match v.InternalFilePath w with
  | .error err => (some (.errorString ("error getting filepath: " ++ err.Error)), w, [])
  | .ok iniFile =>
    let r := v.SetKeys iniFile keys w
    (r.1, r.2, [.setKeys iniFile keys])

/-- The handle that `WithBackoff(c)(next)` returns, run on a batch `hh` in a
world `w`. -/
def WithBackoff {W H R : Type} (rt : Runtime W) (c : Config W) (next : Handle W H R)
    (hh : Slice H) (w : W) : Outcome W H R :=
  if shouldBackoff rt.platform (rt.Now w) c.Retries c.At = true then
    ⟨none, some (.apiErr "won't send heartbeat due to backoff"), w, []⟩
  else
    let r := next hh w
    match r.1.2 with
    | some err =>
      -- error response, increment backoff
      let u := @updateBackoffSettings W H rt c.V (intAdd c.Retries 1) (rt.Now r.2) r.2
      ⟨none, some err, u.2.1, .next hh :: u.2.2⟩
    | none =>
      if c.At.IsZero = false then
        -- success response, reset backoff
        let u := @updateBackoffSettings W H rt c.V 0 Time.zero r.2
        ⟨r.1.1, none, u.2.1, .next hh :: u.2.2⟩
      else
        ⟨r.1.1, none, r.2, [.next hh]⟩

/-- The write requests among the calls of a run. -/
def writes {H : Type} : List (Event H) → List (String × KeyMap)
  | [] => []
  | .setKeys file keys :: tr => (file, keys) :: writes tr
  | .next _ :: tr => writes tr

/-- The batches handed to the wrapped operation among the calls of a run. -/
def nextCalls {H : Type} : List (Event H) → List (Slice H)
  | [] => []
  | .next hh :: tr => hh :: nextCalls tr
  | .setKeys _ _ :: tr => nextCalls tr

end Backoff

namespace Api

/-! ## Strings and base64 -/

/-- A byte. -/
abbrev Byte : Type := Fin 256

/-- A Go string: a sequence of bytes. -/
abbrev GoString : Type := List Byte

/-- The Go string of a literal of ASCII characters. -/
def bytes (s : String) : GoString := s.toList.map (fun c => Fin.ofNat c.toNat)

/-- The alphabet of the standard encoding (`encodeStd`). -/
def encodeStd : GoString :=
  bytes "ABCDEFGHIJKLMNOPQRSTUVWXYZabcdefghijklmnopqrstuvwxyz0123456789+/"

/-- The padding character of the standard encoding (`StdPadding`). -/
def padChar : Byte := 61

/-- The character `enc.encode[i]` of a 6-bit value. -/
def encodeChar (i : Nat) : Byte := encodeStd.getD i 0

/-- The standard encoding of a byte sequence (`base64.StdEncoding.EncodeToString`):
each full group of three bytes becomes four characters of its 24 bits, six at a
time; a rest of one or two bytes becomes two or three characters, padded to four. -/
def EncodeToString : List Byte → GoString
  | [] => []
  | [a] =>
    let val := a.val * 65536
    [encodeChar (val / 262144 % 64), encodeChar (val / 4096 % 64), padChar, padChar]
  | [a, b] =>
    let val := a.val * 65536 + b.val * 256
    [encodeChar (val / 262144 % 64), encodeChar (val / 4096 % 64),
      encodeChar (val / 64 % 64), padChar]
  | a :: b :: c :: rest =>
    let val := a.val * 65536 + b.val * 256 + c.val
    encodeChar (val / 262144 % 64) :: encodeChar (val / 4096 % 64) ::
      encodeChar (val / 64 % 64) :: encodeChar (val % 64) :: EncodeToString rest

/-- Authentication data (`BasicAuth`). -/
structure BasicAuth where
  User : GoString
  Secret : GoString
deriving DecidableEq, Repr

/-- The method `HeaderValue`: the value for the Authorization header, and an error. -/
def BasicAuth.HeaderValue (a : BasicAuth) : GoString × Option GoError :=
  if a.Secret = [] then
    ([], some (.errorString "secret unset"))
  else if a.User = [] then
    (bytes "Basic " ++ EncodeToString a.Secret, none)
  else
    (bytes "Basic " ++ EncodeToString (a.User ++ bytes ":" ++ a.Secret), none)

/-! ## Decoding, after RFC 4648 -/

/-- The 6-bit value of a character of the standard alphabet: its position in
the alphabet; `none` for any other byte. -/
def decodeChar (c : Byte) : Option Nat :=
  let i := encodeStd.indexOf c
  if i < 64 then some i else none

/-- Standard padded base64 decoding (RFC 4648, section 4): the text is read in
groups of four characters; a group of four alphabet characters gives three
bytes; the last group may end in one padding character (two bytes) or in two
(one byte); anything else is rejected. -/
def decodeStd : GoString → Option (List Byte)
  | [] => some []
  | c0 :: c1 :: c2 :: c3 :: rest =>
    if c3 = padChar then
      if rest = [] then
        if c2 = padChar then
          match decodeChar c0, decodeChar c1 with
          | some s0, some s1 => some [Fin.ofNat ((s0 * 4 + s1 / 16) % 256)]
          | _, _ => none
        else
          match decodeChar c0, decodeChar c1, decodeChar c2 with
          | some s0, some s1, some s2 =>
            some [Fin.ofNat ((s0 * 4 + s1 / 16) % 256),
              Fin.ofNat ((s1 % 16 * 16 + s2 / 4) % 256)]
          | _, _, _ => none
      else none
    else
      match decodeChar c0, decodeChar c1, decodeChar c2, decodeChar c3, decodeStd rest with
      | some s0, some s1, some s2, some s3, some bs =>
        some (Fin.ofNat ((s0 * 4 + s1 / 16) % 256) ::
          Fin.ofNat ((s1 % 16 * 16 + s2 / 4) % 256) ::
          Fin.ofNat ((s2 % 4 * 64 + s3) % 256) :: bs)
      | _, _, _, _, _ => none
  | _ => none

end Api

end Wakatime

namespace Wakatime.Backoff

/-! ## Inputs for the worked examples -/

/-- The conversion of amd64: every unrepresentable float64 becomes the least int64. -/
def amd64 : Platform := ⟨fun _ => -(2 ^ 63)⟩

/-- The conversion of arm64: a float64 above the range becomes the greatest int64. -/
def arm64 : Platform := ⟨fun _ => 2 ^ 63 - 1⟩

/-- The instant of Unix time 1585598060 (2020-03-30 19:54:20 UTC). -/
def exampleAt : Time := ⟨63721194860 * Second⟩

/-- A small world: the reading of the clock and the content of the internal ini file. -/
structure ExampleWorld where
  clock : Int
  file : KeyMap
deriving DecidableEq, Repr

/-- A runtime over the small world; dates are printed as their nanosecond count. -/
def exampleRuntime : Runtime ExampleWorld :=
  ⟨amd64, fun w => ⟨w.clock⟩, fun t => toString t.ns⟩

/-- A store that resolves its file and writes every key it is given. -/
def workingStore : Store ExampleWorld :=
  ⟨fun _ => .ok "/home/user/.wakatime-internal.cfg",
    fun _ keys w => (none, ⟨w.clock, keys.foldl (fun m kv => m.assign kv.1 kv.2) w.file⟩)⟩

/-- A store whose file path cannot be resolved. -/
def brokenStore : Store ExampleWorld :=
  ⟨fun _ => .error (.errorString "failed getting user's home directory"),
    fun _ _ w => (some (.errorString "unreachable"), w)⟩

/-- A wrapped operation that fails after two seconds. -/
def failingNext : Handle ExampleWorld Nat Nat :=
  fun _ w => ((none, some (.other "api.ErrRequest" "connection refused")), ⟨w.clock + 2 * Second, w.file⟩)

/-- A wrapped operation that answers one status per heartbeat after one second. -/
def workingNext : Handle ExampleWorld Nat Nat :=
  fun hh w => ((hh.map (fun l => l.map (fun _ => 201)), none), ⟨w.clock + Second, w.file⟩)

/-- A world one hundred seconds after `exampleAt`, with five failures on file. -/
def exampleWorld : ExampleWorld :=
  ⟨exampleAt.ns + 100 * Second, [(keyRetries, "5"), (keyAt, toString exampleAt.ns)]⟩

/-- A world four thousand seconds after `exampleAt`, with five failures on file. -/
def lateWorld : ExampleWorld :=
  ⟨exampleAt.ns + 4000 * Second, [(keyRetries, "5"), (keyAt, toString exampleAt.ns)]⟩

end Wakatime.Backoff

namespace Wakatime.Backoff

/-! ## The backoff state across runs -/

/-- The key map `updateBackoffSettings` builds for a state `(retries, at)`. -/
def backoffKeys {W : Type} (rt : Runtime W) (retries : Int) (atTime : Time) : KeyMap :=
  if atTime.IsZero = false then
    KeyMap.assign [(keyRetries, Itoa retries), (keyAt, "")] keyAt (rt.FormatDate atTime)
  else [(keyRetries, Itoa retries), (keyAt, "")]

/-- The state `(retries, at)` with which a run of the guarded handle calls
`updateBackoffSettings`, if it calls it: `(c.Retries + 1, time.Now())`, the sum
taken in `int`, after an error of the wrapped operation, `(0, time.Time{})`
after a success when `c.At` is set, and no call on a veto or after a success
when `c.At` is unset. -/
def updateRequest {W H R : Type} (rt : Runtime W) (c : Config W) (next : Handle W H R)
    (hh : Slice H) (w : W) : Option (Int × Time) :=
  if shouldBackoff rt.platform (rt.Now w) c.Retries c.At = true then none
  else
    match (next hh w).1.2 with
    | some _ => some (intAdd c.Retries 1, rt.Now (next hh w).2)
    | none => if c.At.IsZero = false then some (0, Time.zero) else none

/-- The greatest `int`. -/
def maxInt : Int := 9223372036854775807

/-- The states that successive runs can leave in the store, starting from the
idle state, as long as the counter stays below the greatest `int`: each run is
configured with the state left before it, by any store, wrapped operation,
batch and world in which the clock does not read the zero time, and leaves the
state of its update request (or, when it makes none or the store fails, the
state it found). -/
inductive Reachable {W : Type} (H R : Type) (rt : Runtime W) : Int → Time → Prop where
  | idle : Reachable H R rt 0 Time.zero
  | step (retries : Int) (atTime : Time) (v : Store W) (next : Handle W H R) (hh : Slice H)
      (w : W) (retries2 : Int) (atTime2 : Time) :
      Reachable H R rt retries atTime →
      retries < maxInt →
      (rt.Now (next hh w).2).IsZero = false →
      updateRequest rt ⟨atTime, retries, v⟩ next hh w = some (retries2, atTime2) →
      Reachable H R rt retries2 atTime2

end Wakatime.Backoff

namespace Wakatime.Logfile

/-! ## Log file parameters (`cmd/legacy/logfile`) -/

/-- The name of the default log file. -/
def defaultFile : String := ".wakatime.log"

/-- Log file parameters (`Params`). -/
structure Params where
  File : String
  ToStdout : Bool
  Verbose : Bool
deriving DecidableEq, Repr

/-- The configuration `v *viper.Viper`, as the reads made of it. -/
structure Viper where
  /-- The call `v.GetBool(key)`. -/
  GetBool : String → Bool
  /-- The call `v.GetString(key)`; an unset key reads as the empty string. -/
  GetString : String → String
  /-- The call `v.IsSet(key)`. -/
  IsSet : String → Bool

/-- Modelled from the spec: `vipertools.FirstNonEmptyString` is declared outside
the sources at hand. After section 6 of the specification the keys are tried in
the order given and the first one whose value is a non-empty string wins: its
value is returned with `true`; with no such key the result is the empty string
and `false`. -/
def FirstNonEmptyString (v : Viper) : List String → String × Bool
  | [] => ("", false)
  | key :: keys =>
    if v.GetString key ≠ "" then (v.GetString key, true) else FirstNonEmptyString v keys

/-- The functions `LoadParams` calls that are declared outside the sources at hand. -/
structure Env where
  /-- The call `vipertools.FirstNonEmptyString(v, keys...)`. -/
  FirstNonEmptyString : Viper → List String → String × Bool
  /-- The call `homedir.Expand(path)`. -/
  Expand : String → Except GoError String
  /-- The call `config.WakaHomeDir()`. -/
  WakaHomeDir : Except GoError String
  /-- The call `filepath.Join(home, file)`. -/
  Join : String → String → String

/-- The function `LoadParams(v)`: the parameters and the error it returns. -/
def LoadParams (env : Env) (v : Viper) : Params × Option GoError :=
  let debug : Bool := if v.IsSet "settings.debug" = true then v.GetBool "settings.debug" else false
  let r := env.FirstNonEmptyString v ["log-file", "logfile", "settings.log_file"]
  if r.2 = true then
    match env.Expand r.1 with
    | .error err =>
      (⟨"", false, false⟩,
        some (.other "logfile.ErrLogFile" ("failed expanding log file: " ++ err.Error)))
    | .ok p => (⟨p, false, v.GetBool "verbose" || debug⟩, none)
  else
    match env.WakaHomeDir with
    | .error err =>
      (⟨"", false, false⟩,
        some (.errorString ("failed getting user's home directory: " ++ err.Error)))
    | .ok home =>
      (⟨env.Join home defaultFile, v.GetBool "log-to-stdout", v.GetBool "verbose" || debug⟩, none)

/-! ### Inputs for the worked examples -/

/-- A configuration given by its string values and its true boolean keys; a
key is set when it has either. -/
def viperOf (strings : List (String × String)) (bools : List String) : Viper :=
  ⟨fun key => bools.contains key,
    fun key => ((strings.find? (fun kv => kv.1 == key)).map (fun kv => kv.2)).getD "",
    fun key => bools.contains key || (strings.find? (fun kv => kv.1 == key)).isSome⟩

/-- The environment whose `FirstNonEmptyString` is the one modelled above. -/
def specEnv (expand : String → Except GoError String) (home : Except GoError String)
    (join : String → String → String) : Env :=
  ⟨FirstNonEmptyString, expand, home, join⟩

/-- An expansion for the home directory `/home/user`: a leading `~` is replaced by it. -/
def exampleExpand (path : String) : Except GoError String :=
  match path.toList with
  | '~' :: rest => .ok ("/home/user" ++ String.mk rest)
  | _ => .ok path

/-- Joining with a slash. -/
def exampleJoin (home file : String) : String := home ++ "/" ++ file

/-- An environment with the home directory `/home/user`. -/
def exampleEnv : Env := specEnv exampleExpand (.ok "/home/user") exampleJoin

/-- An environment in which neither the home directory nor any path resolves. -/
def homelessEnv : Env :=
  specEnv (fun _ => .error (.errorString "no home")) (.error (.errorString "no home")) exampleJoin

end Wakatime.Logfile

namespace Wakatime.HeartbeatPkg

/-! ## Heartbeats and their sanitization (`pkg/heartbeat`)

Of this package only `sanitize_test.go` is among the sources at hand: the
types and functions below are models, and every case of the test file is
checked against them further down. -/

/-- Modelled from the spec: the type `Category` is declared outside the sources
at hand; section 3 lists coding, browsing, building and further categories. -/
inductive Category where
  | coding
  | browsing
  | building
  | other (code : Nat)
deriving DecidableEq, Repr

/-- Modelled from the spec: the type `EntityType` is declared outside the
sources at hand; section 3 lists file, app and domain. -/
inductive EntityType where
  | file
  | app
  | domain
deriving DecidableEq, Repr

/-- Modelled from the spec: the type `Heartbeat` is declared outside the sources
at hand; the fields are those of section 3, under the names the tests use. An
optional field (a pointer in the tests) is an `Option`, `Dependencies` is a
slice, nil when absent, and `Time` is a Unix timestamp. -/
structure Heartbeat where
  Branch : Option String
  Category : Category
  CursorPosition : Option Int
  Dependencies : Slice String
  Entity : String
  EntityType : EntityType
  IsWrite : Option Bool
  Language : Option String
  LineNumber : Option Int
  Lines : Option Int
  Project : Option String
  Time : Int
  UserAgent : String
deriving DecidableEq, Repr

/-- Modelled from the spec: the type `regex.Regex` is declared outside the
sources at hand; a pattern is what its `MatchString` answers for each subject
(unanchored search, section 4.1). -/
structure Regex where
  MatchString : String → Bool

/-- Modelled from the spec: the type `SanitizeConfig` is declared outside the
sources at hand; section 3 gives it three sets of patterns. -/
structure SanitizeConfig where
  FilePatterns : List Regex
  BranchPatterns : List Regex
  ProjectPatterns : List Regex

/-- Modelled from the spec: `ShouldSanitize` is declared outside the sources at
hand. After section 4.1 the patterns are tried one after the other and the
subject is to be sanitized as soon as one of them matches; an empty set never
matches. -/
def ShouldSanitize (subject : String) : List Regex → Bool
  | [] => false
  | p :: patterns => if p.MatchString subject = true then true else ShouldSanitize subject patterns

/-- The scan of `filepath.Ext` over the path read backwards: `rest` is what is
still to be read, `suffix` what has been read. -/
def extScan : List Char → List Char → List Char
  | [], _ => []
  | c :: rest, suffix =>
    if c = '/' then [] else if c = '.' then c :: suffix else extScan rest (c :: suffix)

/-- The extension of a path (`filepath.Ext`, with the slash as separator): the
suffix beginning at the final dot of the final element, empty without a dot. -/
def Ext (path : String) : String := String.mk (extScan path.toList.reverse [])

/-- Modelled from the spec: the clearing of the fields that entity redaction
erases is declared outside the sources at hand. Section 4.1 lists `branch`,
`cursorPosition`, `dependencies`, `lineNumber`, `lines` and `project`; the
tests of `sanitize_test.go` keep `project` in every case and keep `branch`
under a condition of its own, so the four others are cleared here. -/
def sanitizeMetaData (h : Heartbeat) : Heartbeat :=
  { h with CursorPosition := none, Dependencies := none, LineNumber := none, Lines := none }

/-- Modelled from the spec: the clearing of `branch` that goes with an entity
or project redaction is declared outside the sources at hand. After the tests
of `sanitize_test.go` a present `branch` is cleared when there are no branch
patterns or when one of them matches it, and kept otherwise. -/
def sanitizeBranch (h : Heartbeat) (config : SanitizeConfig) : Heartbeat :=
  match h.Branch with
  | some branch =>
    if config.BranchPatterns.length = 0 ∨ ShouldSanitize branch config.BranchPatterns = true
    then { h with Branch := none } else h
  | none => h

/-- A heartbeat with an empty `Dependencies` made nil. -/
def normalizeDependencies (h : Heartbeat) : Heartbeat :=
  match h.Dependencies with
  | some [] => { h with Dependencies := none }
  | _ => h

/-- Modelled from the spec: `Sanitize` is declared in a file outside the
sources at hand. The model follows section 4.1 of the specification where the
tests of `sanitize_test.go` agree with it or are silent, and the tests where
they differ. The first of three cases that applies is taken. Entity redaction,
when `entity` matches a file pattern: `entity` becomes "HIDDEN", followed by
the extension for a file, the metadata are cleared and `branch` as
`sanitizeBranch` says. Project redaction, when `project` is present and
matches a project pattern: the metadata are cleared and `branch` as
`sanitizeBranch` says. Branch redaction, when `branch` is present and matches a
branch pattern: `branch` is cleared and nothing else. When none applies the
heartbeat is returned as it is, except that under the empty configuration an
empty `dependencies` is returned absent, as
`TestSanitize_EmptyConfigDoNothing_EmptyDependencies` expects; no test and no
sentence of the specification has an empty `dependencies` changed under a
configuration with patterns. -/
def Sanitize (h : Heartbeat) (config : SanitizeConfig) : Heartbeat :=
  if ShouldSanitize h.Entity config.FilePatterns = true then
    let entity := if h.EntityType = EntityType.file then "HIDDEN" ++ Ext h.Entity else "HIDDEN"
    sanitizeBranch (sanitizeMetaData { h with Entity := entity }) config
  else if (match h.Project with
      | some project => ShouldSanitize project config.ProjectPatterns
      | none => false) = true then
    sanitizeBranch (sanitizeMetaData h) config
  else if (match h.Branch with
      | some branch => ShouldSanitize branch config.BranchPatterns
      | none => false) = true then
    { h with Branch := none }
  else if config.FilePatterns.length = 0 ∧ config.BranchPatterns.length = 0 ∧
      config.ProjectPatterns.length = 0 then
    normalizeDependencies h
  else h

/-! ### The inputs of the tests -/

/-- Whether `pattern` occurs in `subject` at its start. -/
def startsWith : List Char → List Char → Bool
  | [], _ => true
  | _ :: _, [] => false
  | p :: pattern, c :: subject => p == c && startsWith pattern subject

/-- Whether `pattern` occurs somewhere in `subject`. -/
def occursIn (pattern : List Char) : List Char → Bool
  | [] => startsWith pattern []
  | c :: subject => startsWith pattern (c :: subject) || occursIn pattern subject

/-- The pattern `.*`, which matches every subject. -/
def anything : Regex := ⟨fun _ => true⟩

/-- A pattern that matches the subjects in which the literal text occurs: the
patterns `not_matching`, and `fix.*` and `bar.*` for the texts `fix` and `bar`. -/
def containing (text : String) : Regex := ⟨fun subject => occursIn text.toList subject.toList⟩

/-- The heartbeat of `testHeartbeat()`. -/
def testHeartbeat : Heartbeat :=
  { Branch := some "heartbeat"
    Category := Category.coding
    CursorPosition := some 12
    Dependencies := some ["dep1", "dep2"]
    Entity := "/tmp/main.go"
    EntityType := EntityType.file
    IsWrite := some true
    Language := some "Go"
    LineNumber := some 42
    Lines := some 100
    Project := some "wakatime"
    Time := 1585598060
    UserAgent := "wakatime/13.0.7" }

/-- The heartbeat of the case "app" of `TestSanitize_Obfuscate`. -/
def appHeartbeat : Heartbeat :=
  { Branch := none, Category := Category.coding, CursorPosition := none, Dependencies := none,
    Entity := "Slack", EntityType := EntityType.app, IsWrite := none, Language := none,
    LineNumber := none, Lines := none, Project := none, Time := 1585598060,
    UserAgent := "wakatime/13.0.7" }

/-- The heartbeat of the case "domain" of `TestSanitize_Obfuscate`. -/
def domainHeartbeat : Heartbeat :=
  { Branch := none, Category := Category.browsing, CursorPosition := none, Dependencies := none,
    Entity := "wakatime.com", EntityType := EntityType.domain, IsWrite := none,
    Language := none, LineNumber := none, Lines := none, Project := none, Time := 1585598060,
    UserAgent := "wakatime/13.0.7" }

/-- The empty configuration `SanitizeConfig{}`. -/
def emptyConfig : SanitizeConfig := ⟨[], [], []⟩

/-- The heartbeat of `TestSanitize_EmptyConfigDoNothing_EmptyDependencies`:
`testHeartbeat()` with `Dependencies` set to the empty slice. -/
def emptyDependenciesHeartbeat : Heartbeat := { testHeartbeat with Dependencies := some [] }

end Wakatime.HeartbeatPkg

namespace Wakatime.Backoff

/-! ## Theorems: `shouldBackoff` -/

theorem wrapInt64_of_mem (x : Int) (h0 : -(2 ^ 63) ≤ x) (h1 : x < 2 ^ 63) : wrapInt64 x = x := by
  unfold wrapInt64
  rw [Int.emod_eq_of_lt (by omega) (by omega)]
  omega

theorem durationOfFloat_backoffFloat (p : Platform) (retries : Int) (h59 : retries ≤ 59) :
    durationOfFloat p (backoffFloat retries) = 15 * 2 ^ retries.toNat := by
  have hle : (2 : Int) ^ retries.toNat ≤ 2 ^ 59 :=
    pow_le_pow_right₀ (by norm_num) (by omega)
  have hf : backoffFloat retries = some (15 * 2 ^ retries.toNat) := by
    simp only [backoffFloat, factor]
    rw [if_pos (by omega)]
  rw [hf]
  simp only [durationOfFloat]
  rw [if_pos]
  norm_num at hle ⊢
  omega

theorem backoffDuration_of_le_59 (p : Platform) (retries : Int) (h59 : retries ≤ 59) :
    backoffDuration p retries = wrapInt64 (15 * 2 ^ retries.toNat * Second) := by
  unfold backoffDuration
  rw [durationOfFloat_backoffFloat p retries h59]

theorem backoffDuration_of_le_29 (p : Platform) (retries : Int)
    (h29 : retries ≤ 29) : backoffDuration p retries = 15 * 2 ^ retries.toNat * Second := by
  have hle : (2 : Int) ^ retries.toNat ≤ 2 ^ 29 :=
    pow_le_pow_right₀ (by norm_num) (by omega)
  have hpos : (0 : Int) < 2 ^ retries.toNat := by positivity
  rw [backoffDuration_of_le_59 p retries (by omega)]
  apply wrapInt64_of_mem <;> simp only [Second] <;> norm_num at hle ⊢ <;> omega

/-- Up to 29 retries the product fits: `shouldBackoff` is true exactly when the
current time is before `at + 15 * 2^retries` seconds and before `at + 3600`
seconds. -/
theorem shouldBackoff_iff_of_le_29 (p : Platform) (now atTime : Time) (retries : Int)
    (h1 : 1 ≤ retries) (h29 : retries ≤ 29) (hat : atTime.IsZero = false) :
    shouldBackoff p now retries atTime = true ↔
      now.ns < atTime.ns + 15 * 2 ^ retries.toNat * Second ∧
        now.ns < atTime.ns + 3600 * Second := by
  unfold shouldBackoff
  rw [if_neg (by simp [hat]; omega)]
  simp only [backoffDuration_of_le_29 p retries h29, Time.Before, Time.Add, resetAfter,
    Bool.and_eq_true, decide_eq_true_eq]

/-- C1, the code at the failing input: with 30 retries the product
`15 * 2^30 * 10^9` leaves the 64-bit range and wraps to a negative duration, so
`shouldBackoff` is false 100 seconds after the failure, on every platform,
although the current time is before `at + 15 * 2^30` seconds and before
`at + 3600` seconds. -/
theorem shouldBackoff_retries_30_overflow :
    (∀ p : Platform, backoffDuration p 30 = -2340616713709551616) ∧
    (∀ p : Platform, shouldBackoff p (exampleAt.Add (100 * Second)) 30 exampleAt = false) ∧
    exampleAt.IsZero = false ∧
    (exampleAt.Add (100 * Second)).ns < exampleAt.ns + 15 * 2 ^ 30 * Second ∧
    (exampleAt.Add (100 * Second)).ns < exampleAt.ns + 3600 * Second := by
  refine ⟨fun p => ?_, fun p => ?_, by decide, by decide, by decide⟩
  · rw [backoffDuration_of_le_59 p 30 (by decide)]
    decide
  · unfold shouldBackoff
    rw [if_neg (by decide), backoffDuration_of_le_59 p 30 (by decide)]
    decide

/-- C2: `shouldBackoff` is false whenever `retries < 1`, whatever the
timestamp, and whenever the timestamp is the zero time, whatever the number of
retries; in both cases whatever the current time and the platform. -/
theorem shouldBackoff_false_without_failure (p : Platform) (now : Time) :
    (∀ (retries : Int) (atTime : Time), retries < 1 →
      shouldBackoff p now retries atTime = false) ∧
    (∀ retries : Int, shouldBackoff p now retries Time.zero = false) := by
  constructor
  · intro retries atTime h
    unfold shouldBackoff
    rw [if_pos (Or.inl h)]
  · intro retries
    unfold shouldBackoff
    rw [if_pos (Or.inr (by decide))]

theorem shouldBackoff_false_without_failure_witness :
    (-3 : Int) < 1 ∧ shouldBackoff amd64 (exampleAt.Add Second) (-3) exampleAt = false ∧
      shouldBackoff amd64 (exampleAt.Add Second) 0 exampleAt = false ∧
      shouldBackoff amd64 (exampleAt.Add Second) 7 Time.zero = false :=
  ⟨by decide,
    (shouldBackoff_false_without_failure amd64 (exampleAt.Add Second)).1 (-3) exampleAt (by decide),
    (shouldBackoff_false_without_failure amd64 (exampleAt.Add Second)).1 0 exampleAt (by decide),
    (shouldBackoff_false_without_failure amd64 (exampleAt.Add Second)).2 7⟩

/-- C3: once the current time is at or past `at + 3600` seconds,
`shouldBackoff` is false for every number of retries, every timestamp and
every platform. -/
theorem shouldBackoff_false_after_reset (p : Platform) (now atTime : Time) (retries : Int)
    (h : atTime.ns + 3600 * Second ≤ now.ns) :
    shouldBackoff p now retries atTime = false := by
  unfold shouldBackoff
  split
  · rfl
  · have hb : now.Before (atTime.Add (resetAfter * Second)) = false := by
      simp only [Time.Before, Time.Add, resetAfter, decide_eq_false_iff_not, not_lt]
      exact h
    simp only [hb, Bool.and_false]

theorem shouldBackoff_false_after_reset_witness :
    exampleAt.ns + 3600 * Second ≤ (exampleAt.Add (3600 * Second)).ns ∧
      shouldBackoff amd64 (exampleAt.Add (3600 * Second)) 100 exampleAt = false :=
  ⟨by decide,
    shouldBackoff_false_after_reset amd64 (exampleAt.Add (3600 * Second)) exampleAt 100
      (by decide)⟩

/-- The two examples of the specification: five retries, 100 seconds after the
failure (backoff) and 4000 seconds after it (no backoff). -/
theorem shouldBackoff_five_retries (p : Platform) :
    shouldBackoff p (exampleAt.Add (100 * Second)) 5 exampleAt = true ∧
      shouldBackoff p (exampleAt.Add (4000 * Second)) 5 exampleAt = false := by
  constructor
  · rw [shouldBackoff_iff_of_le_29 p _ _ 5 (by decide) (by decide) (by decide)]
    decide
  · rw [← Bool.not_eq_true, shouldBackoff_iff_of_le_29 p _ _ 5 (by decide) (by decide)
      (by decide)]
    decide

/-! ## Theorems: `updateBackoffSettings` and `WithBackoff` -/

theorem updateBackoffSettings_nextCalls {W H : Type} (rt : Runtime W) (v : Store W)
    (retries : Int) (atTime : Time) (w : W) :
    nextCalls (@updateBackoffSettings W H rt v retries atTime w).2.2 = [] := by
  unfold updateBackoffSettings
  cases v.InternalFilePath w <;> rfl

theorem updateBackoffSettings_ok {W H : Type} (rt : Runtime W) (v : Store W)
    (retries : Int) (atTime : Time) (w : W) (file : String)
    (h : v.InternalFilePath w = .ok file) :
    writes (@updateBackoffSettings W H rt v retries atTime w).2.2 =
        [(file, if atTime.IsZero = false
          then [(keyRetries, Itoa retries), (keyAt, rt.FormatDate atTime)]
          else [(keyRetries, Itoa retries), (keyAt, "")])] ∧
      (@updateBackoffSettings W H rt v retries atTime w).2.1 =
        (v.SetKeys file (if atTime.IsZero = false
          then [(keyRetries, Itoa retries), (keyAt, rt.FormatDate atTime)]
          else [(keyRetries, Itoa retries), (keyAt, "")]) w).2 := by
  have hk : ∀ s : String, KeyMap.assign [(keyRetries, Itoa retries), (keyAt, "")] keyAt s =
      [(keyRetries, Itoa retries), (keyAt, s)] := by
    intro s
    have hne : ¬ keyRetries = keyAt := by decide
    simp [KeyMap.assign, hne]
  unfold updateBackoffSettings
  simp only [h]
  cases hz : atTime.IsZero <;> simp [hk, writes]

theorem updateBackoffSettings_error {W H : Type} (rt : Runtime W) (v : Store W)
    (retries : Int) (atTime : Time) (w : W) (e : GoError)
    (h : v.InternalFilePath w = .error e) :
    (@updateBackoffSettings W H rt v retries atTime w).2.2 = [] ∧
      (@updateBackoffSettings W H rt v retries atTime w).2.1 = w := by
  unfold updateBackoffSettings
  simp only [h, and_self]

/-- C4: when `shouldBackoff` is true, the guarded handle returns nil results
and the error `api.Err("won't send heartbeat due to backoff")`, makes no call
at all (neither to the wrapped operation nor to the settings store) and leaves
the world, the persisted state with it, as it found it. -/
theorem WithBackoff_veto {W H R : Type} (rt : Runtime W) (c : Config W)
    (next : Handle W H R) (hh : Slice H) (w : W)
    (h : shouldBackoff rt.platform (rt.Now w) c.Retries c.At = true) :
    (WithBackoff rt c next hh w).results = none ∧
      (WithBackoff rt c next hh w).err =
        some (GoError.apiErr "won't send heartbeat due to backoff") ∧
      (WithBackoff rt c next hh w).trace = [] ∧
      nextCalls (WithBackoff rt c next hh w).trace = [] ∧
      writes (WithBackoff rt c next hh w).trace = [] ∧
      (WithBackoff rt c next hh w).world = w := by
  unfold WithBackoff
  rw [if_pos h]
  exact ⟨rfl, rfl, rfl, rfl, rfl, rfl⟩

theorem WithBackoff_veto_witness :
    shouldBackoff exampleRuntime.platform (exampleRuntime.Now exampleWorld) 5 exampleAt = true ∧
      (WithBackoff exampleRuntime ⟨exampleAt, 5, workingStore⟩ workingNext (some [1, 2])
        exampleWorld).results = none ∧
      (WithBackoff exampleRuntime ⟨exampleAt, 5, workingStore⟩ workingNext (some [1, 2])
        exampleWorld).err = some (GoError.apiErr "won't send heartbeat due to backoff") ∧
      (WithBackoff exampleRuntime ⟨exampleAt, 5, workingStore⟩ workingNext (some [1, 2])
        exampleWorld).trace = [] ∧
      nextCalls (WithBackoff exampleRuntime ⟨exampleAt, 5, workingStore⟩ workingNext
        (some [1, 2]) exampleWorld).trace = [] ∧
      writes (WithBackoff exampleRuntime ⟨exampleAt, 5, workingStore⟩ workingNext
        (some [1, 2]) exampleWorld).trace = [] ∧
      (WithBackoff exampleRuntime ⟨exampleAt, 5, workingStore⟩ workingNext (some [1, 2])
        exampleWorld).world = exampleWorld :=
  ⟨by decide,
    WithBackoff_veto exampleRuntime ⟨exampleAt, 5, workingStore⟩ workingNext (some [1, 2])
      exampleWorld (by decide)⟩

theorem WithBackoff_eq_of_veto {W H R : Type} (rt : Runtime W) (c : Config W)
    (next : Handle W H R) (hh : Slice H) (w : W)
    (h : shouldBackoff rt.platform (rt.Now w) c.Retries c.At = true) :
    WithBackoff rt c next hh w =
      ⟨none, some (GoError.apiErr "won't send heartbeat due to backoff"), w, []⟩ := by
  unfold WithBackoff
  rw [if_pos h]

theorem WithBackoff_eq_of_error {W H R : Type} (rt : Runtime W) (c : Config W)
    (next : Handle W H R) (hh : Slice H) (w : W) (e : GoError)
    (hveto : shouldBackoff rt.platform (rt.Now w) c.Retries c.At = false)
    (herr : (next hh w).1.2 = some e) :
    WithBackoff rt c next hh w =
      ⟨none, some e,
        (@updateBackoffSettings W H rt c.V (intAdd c.Retries 1) (rt.Now (next hh w).2)
          (next hh w).2).2.1,
        Event.next hh ::
          (@updateBackoffSettings W H rt c.V (intAdd c.Retries 1) (rt.Now (next hh w).2)
            (next hh w).2).2.2⟩ := by
  unfold WithBackoff
  rw [if_neg (by simp [hveto])]
  simp only [herr]

theorem WithBackoff_eq_of_reset {W H R : Type} (rt : Runtime W) (c : Config W)
    (next : Handle W H R) (hh : Slice H) (w : W)
    (hveto : shouldBackoff rt.platform (rt.Now w) c.Retries c.At = false)
    (hok : (next hh w).1.2 = none) (hset : c.At.IsZero = false) :
    WithBackoff rt c next hh w =
      ⟨(next hh w).1.1, none,
        (@updateBackoffSettings W H rt c.V 0 Time.zero (next hh w).2).2.1,
        Event.next hh :: (@updateBackoffSettings W H rt c.V 0 Time.zero (next hh w).2).2.2⟩ := by
  unfold WithBackoff
  rw [if_neg (by simp [hveto])]
  simp only [hok]
  rw [if_pos hset]

theorem WithBackoff_eq_of_idle {W H R : Type} (rt : Runtime W) (c : Config W)
    (next : Handle W H R) (hh : Slice H) (w : W)
    (hveto : shouldBackoff rt.platform (rt.Now w) c.Retries c.At = false)
    (hok : (next hh w).1.2 = none) (hunset : c.At.IsZero = true) :
    WithBackoff rt c next hh w = ⟨(next hh w).1.1, none, (next hh w).2, [Event.next hh]⟩ := by
  unfold WithBackoff
  rw [if_neg (by simp [hveto])]
  simp only [hok]
  rw [if_neg (by simp [hunset])]

theorem intAdd_one_of_lt (n : Int) (hlow : -(2 ^ 63) ≤ n + 1) (hlt : n < maxInt) :
    intAdd n 1 = n + 1 := by
  unfold maxInt at hlt
  unfold intAdd
  exact wrapInt64_of_mem (n + 1) hlow (by omega)

/-- The failure transition short of the overflow of the counter: when the guard
does not veto, the wrapped operation returns an error `e` and `retries` is an
`int` below the greatest, the guarded handle returns nil results and exactly
`e`, and asks the store for one update, with `retries + 1` and the current
time (the reading of the clock after the wrapped operation returned, which is
never the zero time), whatever `at` was before: if the file path resolves,
exactly one write is issued, of `backoff_retries = Itoa (retries + 1)` and
`backoff_at` = the formatted current time, and the world is the one `SetKeys`
leaves; if it does not resolve, no write is issued. -/
theorem WithBackoff_failure_in_range {W H R : Type} (rt : Runtime W) (c : Config W)
    (next : Handle W H R) (hh : Slice H) (w : W) (e : GoError)
    (hveto : shouldBackoff rt.platform (rt.Now w) c.Retries c.At = false)
    (herr : (next hh w).1.2 = some e)
    (hnow : (rt.Now (next hh w).2).IsZero = false)
    (hlow : -(2 ^ 63) ≤ c.Retries + 1) (hlt : c.Retries < maxInt) :
    (WithBackoff rt c next hh w).results = none ∧
      (WithBackoff rt c next hh w).err = some e ∧
      (∀ file : String, c.V.InternalFilePath (next hh w).2 = .ok file →
        writes (WithBackoff rt c next hh w).trace =
            [(file, [(keyRetries, Itoa (c.Retries + 1)),
              (keyAt, rt.FormatDate (rt.Now (next hh w).2))])] ∧
          (WithBackoff rt c next hh w).world =
            (c.V.SetKeys file [(keyRetries, Itoa (c.Retries + 1)),
              (keyAt, rt.FormatDate (rt.Now (next hh w).2))] (next hh w).2).2) ∧
      (∀ e0 : GoError, c.V.InternalFilePath (next hh w).2 = .error e0 →
        writes (WithBackoff rt c next hh w).trace = [] ∧
          (WithBackoff rt c next hh w).world = (next hh w).2) := by
  rw [WithBackoff_eq_of_error rt c next hh w e hveto herr,
    intAdd_one_of_lt c.Retries hlow hlt]
  refine ⟨rfl, rfl, fun file hf => ?_, fun e0 hf => ?_⟩
  · have hu := @updateBackoffSettings_ok W H rt c.V (c.Retries + 1)
      (rt.Now (next hh w).2) (next hh w).2 file hf
    simp only [hnow, if_true] at hu
    exact ⟨by simpa [writes] using hu.1, hu.2⟩
  · have hu := @updateBackoffSettings_error W H rt c.V (c.Retries + 1)
      (rt.Now (next hh w).2) (next hh w).2 e0 hf
    exact ⟨by simp [writes, hu.1], hu.2⟩

/-- The failure transition on the worked example: after five retries a sixth
failure, 4002 seconds after the recorded one, writes `backoff_retries = "6"`
and the time of this failure, and returns the error of the wrapped operation. -/
theorem WithBackoff_failure_five_retries :
    (WithBackoff exampleRuntime ⟨exampleAt, 5, workingStore⟩ failingNext (some [1, 2])
        lateWorld).results = none ∧
      (WithBackoff exampleRuntime ⟨exampleAt, 5, workingStore⟩ failingNext (some [1, 2])
        lateWorld).err = some (GoError.other "api.ErrRequest" "connection refused") ∧
      writes (WithBackoff exampleRuntime ⟨exampleAt, 5, workingStore⟩ failingNext
        (some [1, 2]) lateWorld).trace =
          [("/home/user/.wakatime-internal.cfg",
            [(keyRetries, "6"), (keyAt, "63721198862000000000")])] := by
  decide

/-- C5, the code at the failing input: with `retries` the greatest `int`
(9223372036854775807), a set `at` and the clock 4000 seconds after it, the
guard does not veto; the wrapped operation fails, the error is returned with
nil results, and the increment `c.Retries+1` wraps: the one write is
`backoff_retries = "-9223372036854775808"` (with `backoff_at` the time of the
failure), not `retries + 1 = 9223372036854775808`. -/
theorem WithBackoff_failure_counter_overflow :
    shouldBackoff exampleRuntime.platform (exampleRuntime.Now lateWorld) maxInt exampleAt
        = false ∧
      (failingNext (some [1, 2]) lateWorld).1.2 =
        some (GoError.other "api.ErrRequest" "connection refused") ∧
      (WithBackoff exampleRuntime ⟨exampleAt, maxInt, workingStore⟩ failingNext (some [1, 2])
        lateWorld).results = none ∧
      (WithBackoff exampleRuntime ⟨exampleAt, maxInt, workingStore⟩ failingNext (some [1, 2])
        lateWorld).err = some (GoError.other "api.ErrRequest" "connection refused") ∧
      writes (WithBackoff exampleRuntime ⟨exampleAt, maxInt, workingStore⟩ failingNext
        (some [1, 2]) lateWorld).trace =
          [("/home/user/.wakatime-internal.cfg",
            [(keyRetries, "-9223372036854775808"), (keyAt, "63721198862000000000")])] ∧
      Itoa (maxInt + 1) = "9223372036854775808" := by
  decide

/-- C6: when the guard does not veto and the wrapped operation succeeds, the
guarded handle returns no error and the results of the wrapped operation. If
`at` was set it asks the store for one update, with 0 retries and the zero
time: when the file path resolves exactly one write is issued, of
`backoff_retries = "0"` and `backoff_at = ""`, and when it does not resolve no
write is issued. If `at` was unset the only call is the one to the wrapped
operation: no write is issued and the world is the one the wrapped operation
leaves. -/
theorem WithBackoff_success {W H R : Type} (rt : Runtime W) (c : Config W)
    (next : Handle W H R) (hh : Slice H) (w : W)
    (hveto : shouldBackoff rt.platform (rt.Now w) c.Retries c.At = false)
    (hok : (next hh w).1.2 = none) :
    (WithBackoff rt c next hh w).err = none ∧
      (WithBackoff rt c next hh w).results = (next hh w).1.1 ∧
      (c.At.IsZero = false →
        (∀ file : String, c.V.InternalFilePath (next hh w).2 = .ok file →
          writes (WithBackoff rt c next hh w).trace =
              [(file, [(keyRetries, "0"), (keyAt, "")])] ∧
            (WithBackoff rt c next hh w).world =
              (c.V.SetKeys file [(keyRetries, "0"), (keyAt, "")] (next hh w).2).2) ∧
        (∀ e0 : GoError, c.V.InternalFilePath (next hh w).2 = .error e0 →
          writes (WithBackoff rt c next hh w).trace = [] ∧
            (WithBackoff rt c next hh w).world = (next hh w).2)) ∧
      (c.At.IsZero = true →
        (WithBackoff rt c next hh w).trace = [Event.next hh] ∧
          writes (WithBackoff rt c next hh w).trace = [] ∧
          (WithBackoff rt c next hh w).world = (next hh w).2) := by
  have hitoa : Itoa 0 = "0" := by decide
  refine ⟨?_, ?_, fun hset => ⟨fun file hf => ?_, fun e0 hf => ?_⟩, fun hunset => ?_⟩
  · cases hz : c.At.IsZero
    · rw [WithBackoff_eq_of_reset rt c next hh w hveto hok hz]
    · rw [WithBackoff_eq_of_idle rt c next hh w hveto hok hz]
  · cases hz : c.At.IsZero
    · rw [WithBackoff_eq_of_reset rt c next hh w hveto hok hz]
    · rw [WithBackoff_eq_of_idle rt c next hh w hveto hok hz]
  · have hu := @updateBackoffSettings_ok W H rt c.V 0 Time.zero (next hh w).2 file hf
    have hz : Time.zero.IsZero = true := by decide
    simp only [hz, Bool.true_eq_false, if_false, hitoa] at hu
    rw [WithBackoff_eq_of_reset rt c next hh w hveto hok hset]
    exact ⟨by simpa [writes] using hu.1, hu.2⟩
  · have hu := @updateBackoffSettings_error W H rt c.V 0 Time.zero (next hh w).2 e0 hf
    rw [WithBackoff_eq_of_reset rt c next hh w hveto hok hset]
    exact ⟨by simp [writes, hu.1], hu.2⟩
  · rw [WithBackoff_eq_of_idle rt c next hh w hveto hok hunset]
    exact ⟨rfl, rfl, rfl⟩

theorem WithBackoff_success_witness :
    shouldBackoff exampleRuntime.platform (exampleRuntime.Now lateWorld) 5 exampleAt = false ∧
      (workingNext (some [1, 2]) lateWorld).1.2 = none ∧
      (WithBackoff exampleRuntime ⟨exampleAt, 5, workingStore⟩ workingNext (some [1, 2])
        lateWorld).err = none ∧
      (WithBackoff exampleRuntime ⟨exampleAt, 5, workingStore⟩ workingNext (some [1, 2])
        lateWorld).results = some [201, 201] ∧
      writes (WithBackoff exampleRuntime ⟨exampleAt, 5, workingStore⟩ workingNext
        (some [1, 2]) lateWorld).trace =
          [("/home/user/.wakatime-internal.cfg", [(keyRetries, "0"), (keyAt, "")])] ∧
      (shouldBackoff exampleRuntime.platform (exampleRuntime.Now lateWorld) 0 Time.zero = false ∧
        writes (WithBackoff exampleRuntime ⟨Time.zero, 0, workingStore⟩ workingNext
          (some [1, 2]) lateWorld).trace = []) :=
  ⟨by decide, by decide,
    (WithBackoff_success exampleRuntime ⟨exampleAt, 5, workingStore⟩ workingNext (some [1, 2])
      lateWorld (by decide) (by decide)).1,
    (WithBackoff_success exampleRuntime ⟨exampleAt, 5, workingStore⟩ workingNext (some [1, 2])
      lateWorld (by decide) (by decide)).2.1,
    (((WithBackoff_success exampleRuntime ⟨exampleAt, 5, workingStore⟩ workingNext (some [1, 2])
      lateWorld (by decide) (by decide)).2.2.1 (by decide)).1 _ rfl).1,
    by decide,
    ((WithBackoff_success exampleRuntime ⟨Time.zero, 0, workingStore⟩ workingNext (some [1, 2])
      lateWorld (by decide) (by decide)).2.2.2 (by decide)).2.1⟩

theorem WithBackoff_returned {W H R : Type} (rt : Runtime W) (c : Config W)
    (next : Handle W H R) (hh : Slice H) (w : W) :
    ((WithBackoff rt c next hh w).results, (WithBackoff rt c next hh w).err) =
      if shouldBackoff rt.platform (rt.Now w) c.Retries c.At = true then
        (none, some (GoError.apiErr "won't send heartbeat due to backoff"))
      else
        match (next hh w).1.2 with
        | some e => (none, some e)
        | none => ((next hh w).1.1, none) := by
  cases hveto : shouldBackoff rt.platform (rt.Now w) c.Retries c.At
  · rw [if_neg (by simp)]
    cases herr : (next hh w).1.2 with
    | some e => rw [WithBackoff_eq_of_error rt c next hh w e hveto herr]
    | none =>
      cases hz : c.At.IsZero
      · rw [WithBackoff_eq_of_reset rt c next hh w hveto herr hz]
      · rw [WithBackoff_eq_of_idle rt c next hh w hveto herr hz]
  · rw [if_pos rfl, WithBackoff_eq_of_veto rt c next hh w hveto]

/-- C7: the pair (results, error) that the guarded handle returns is the same
for any two settings stores, whether their updates succeed or fail: it is the
veto error when `shouldBackoff` is true, and otherwise nil results with the
error of the wrapped operation, or its results with no error. -/
theorem WithBackoff_store_not_surfaced {W H R : Type} (rt : Runtime W) (atTime : Time)
    (retries : Int) (v1 v2 : Store W) (next : Handle W H R) (hh : Slice H) (w : W) :
    (WithBackoff rt ⟨atTime, retries, v1⟩ next hh w).results =
        (WithBackoff rt ⟨atTime, retries, v2⟩ next hh w).results ∧
      (WithBackoff rt ⟨atTime, retries, v1⟩ next hh w).err =
        (WithBackoff rt ⟨atTime, retries, v2⟩ next hh w).err ∧
      ((WithBackoff rt ⟨atTime, retries, v1⟩ next hh w).results,
        (WithBackoff rt ⟨atTime, retries, v1⟩ next hh w).err) =
        if shouldBackoff rt.platform (rt.Now w) retries atTime = true then
          (none, some (GoError.apiErr "won't send heartbeat due to backoff"))
        else
          match (next hh w).1.2 with
          | some e => (none, some e)
          | none => ((next hh w).1.1, none) := by
  have h1 := WithBackoff_returned rt ⟨atTime, retries, v1⟩ next hh w
  have h2 := WithBackoff_returned rt ⟨atTime, retries, v2⟩ next hh w
  have h12 := h1.trans h2.symm
  exact ⟨congrArg Prod.fst h12, congrArg Prod.snd h12, h1⟩

/-- The run of C7 on the worked example: a store that writes and a store whose
file path does not resolve return the same error to the caller. -/
theorem WithBackoff_store_not_surfaced_example :
    (WithBackoff exampleRuntime ⟨exampleAt, 5, workingStore⟩ failingNext (some [1, 2])
        lateWorld).err = some (GoError.other "api.ErrRequest" "connection refused") ∧
      (WithBackoff exampleRuntime ⟨exampleAt, 5, brokenStore⟩ failingNext (some [1, 2])
        lateWorld).err = some (GoError.other "api.ErrRequest" "connection refused") ∧
      writes (WithBackoff exampleRuntime ⟨exampleAt, 5, brokenStore⟩ failingNext (some [1, 2])
        lateWorld).trace = [] := by
  decide

/-- C8: when the guard does not veto, the wrapped operation is invoked exactly
once, with exactly the batch the guard received, and when it succeeds the
guard returns exactly its results, with no error. -/
theorem WithBackoff_transparent {W H R : Type} (rt : Runtime W) (c : Config W)
    (next : Handle W H R) (hh : Slice H) (w : W)
    (hveto : shouldBackoff rt.platform (rt.Now w) c.Retries c.At = false) :
    nextCalls (WithBackoff rt c next hh w).trace = [hh] ∧
      ((next hh w).1.2 = none →
        (WithBackoff rt c next hh w).results = (next hh w).1.1 ∧
          (WithBackoff rt c next hh w).err = none) := by
  constructor
  · cases herr : (next hh w).1.2 with
    | some e =>
      rw [WithBackoff_eq_of_error rt c next hh w e hveto herr]
      simp only [nextCalls, updateBackoffSettings_nextCalls]
    | none =>
      cases hz : c.At.IsZero
      · rw [WithBackoff_eq_of_reset rt c next hh w hveto herr hz]
        simp only [nextCalls, updateBackoffSettings_nextCalls]
      · rw [WithBackoff_eq_of_idle rt c next hh w hveto herr hz]
        rfl
  · intro hok
    have h := WithBackoff_returned rt c next hh w
    rw [if_neg (by simp [hveto])] at h
    simp only [hok] at h
    exact ⟨congrArg Prod.fst h, congrArg Prod.snd h⟩

theorem WithBackoff_transparent_witness :
    shouldBackoff exampleRuntime.platform (exampleRuntime.Now lateWorld) 5 exampleAt = false ∧
      nextCalls (WithBackoff exampleRuntime ⟨exampleAt, 5, workingStore⟩ workingNext
        (some [7, 8, 9]) lateWorld).trace = [some [7, 8, 9]] ∧
      (WithBackoff exampleRuntime ⟨exampleAt, 5, workingStore⟩ workingNext
        (some [7, 8, 9]) lateWorld).results = (workingNext (some [7, 8, 9]) lateWorld).1.1 ∧
      (WithBackoff exampleRuntime ⟨exampleAt, 5, workingStore⟩ workingNext
        (some [7, 8, 9]) lateWorld).err = none :=
  ⟨by decide,
    (WithBackoff_transparent exampleRuntime ⟨exampleAt, 5, workingStore⟩ workingNext
      (some [7, 8, 9]) lateWorld (by decide)).1,
    ((WithBackoff_transparent exampleRuntime ⟨exampleAt, 5, workingStore⟩ workingNext
      (some [7, 8, 9]) lateWorld (by decide)).2 (by decide)).1,
    ((WithBackoff_transparent exampleRuntime ⟨exampleAt, 5, workingStore⟩ workingNext
      (some [7, 8, 9]) lateWorld (by decide)).2 (by decide)).2⟩

end Wakatime.Backoff

namespace Wakatime.Api

/-! ## Theorems: base64 and `HeaderValue` -/

theorem decodeChar_encodeChar (i : Nat) (h : i < 64) : decodeChar (encodeChar i) = some i := by
  have key : ∀ j : Fin 64, decodeChar (encodeChar j.val) = some j.val := by decide
  exact key ⟨i, h⟩

theorem encodeChar_ne_padChar (i : Nat) (h : i < 64) : encodeChar i ≠ padChar := by
  have key : ∀ j : Fin 64, encodeChar j.val ≠ padChar := by decide
  exact key ⟨i, h⟩

theorem decodeStd_group (c0 c1 c2 c3 : Byte) (rest : GoString) (s0 s1 s2 s3 : Nat)
    (bs : List Byte) (hpad : c3 ≠ padChar) (h0 : decodeChar c0 = some s0)
    (h1 : decodeChar c1 = some s1) (h2 : decodeChar c2 = some s2)
    (h3 : decodeChar c3 = some s3) (hrest : decodeStd rest = some bs) :
    decodeStd (c0 :: c1 :: c2 :: c3 :: rest) =
      some (Fin.ofNat ((s0 * 4 + s1 / 16) % 256) ::
        Fin.ofNat ((s1 % 16 * 16 + s2 / 4) % 256) ::
        Fin.ofNat ((s2 % 4 * 64 + s3) % 256) :: bs) := by
  rw [decodeStd, if_neg hpad, h0, h1, h2, h3, hrest]

theorem decodeStd_last_two (c0 c1 c2 : Byte) (s0 s1 s2 : Nat) (hpad : c2 ≠ padChar)
    (h0 : decodeChar c0 = some s0) (h1 : decodeChar c1 = some s1)
    (h2 : decodeChar c2 = some s2) :
    decodeStd [c0, c1, c2, padChar] =
      some [Fin.ofNat ((s0 * 4 + s1 / 16) % 256), Fin.ofNat ((s1 % 16 * 16 + s2 / 4) % 256)] := by
  rw [decodeStd, if_pos rfl, if_pos rfl, if_neg hpad, h0, h1, h2]

theorem decodeStd_last_one (c0 c1 : Byte) (s0 s1 : Nat)
    (h0 : decodeChar c0 = some s0) (h1 : decodeChar c1 = some s1) :
    decodeStd [c0, c1, padChar, padChar] = some [Fin.ofNat ((s0 * 4 + s1 / 16) % 256)] := by
  rw [decodeStd, if_pos rfl, if_pos rfl, if_pos rfl, h0, h1]

theorem ofNat_eq_byte (a : Byte) (n : Nat) (h : n % 256 = a.val) :
    (Fin.ofNat (n % 256) : Byte) = a := by
  apply Fin.ext
  show n % 256 % 256 = a.val
  omega

/-- Decoding undoes encoding: every byte sequence is recovered from its
standard encoding. -/
theorem decodeStd_EncodeToString (bs : List Byte) : decodeStd (EncodeToString bs) = some bs := by
  induction bs using EncodeToString.induct with
  | case1 => rfl
  | case2 a =>
    have ha := a.isLt
    simp only [EncodeToString]
    rw [decodeStd_last_one _ _ _ _ (decodeChar_encodeChar _ (Nat.mod_lt _ (by decide)))
      (decodeChar_encodeChar _ (Nat.mod_lt _ (by decide)))]
    rw [ofNat_eq_byte a _ (by omega)]
  | case3 a b =>
    have ha := a.isLt
    have hb := b.isLt
    simp only [EncodeToString]
    rw [decodeStd_last_two _ _ _ _ _ _ (encodeChar_ne_padChar _ (Nat.mod_lt _ (by decide)))
      (decodeChar_encodeChar _ (Nat.mod_lt _ (by decide)))
      (decodeChar_encodeChar _ (Nat.mod_lt _ (by decide)))
      (decodeChar_encodeChar _ (Nat.mod_lt _ (by decide)))]
    rw [ofNat_eq_byte a _ (by omega), ofNat_eq_byte b _ (by omega)]
  | case4 a b c rest ih =>
    have ha := a.isLt
    have hb := b.isLt
    have hc := c.isLt
    simp only [EncodeToString]
    rw [decodeStd_group _ _ _ _ _ _ _ _ _ rest
      (encodeChar_ne_padChar _ (Nat.mod_lt _ (by decide)))
      (decodeChar_encodeChar _ (Nat.mod_lt _ (by decide)))
      (decodeChar_encodeChar _ (Nat.mod_lt _ (by decide)))
      (decodeChar_encodeChar _ (Nat.mod_lt _ (by decide)))
      (decodeChar_encodeChar _ (Nat.mod_lt _ (by decide))) ih]
    rw [ofNat_eq_byte a _ (by omega), ofNat_eq_byte b _ (by omega),
      ofNat_eq_byte c _ (by omega)]

/-- C9: `HeaderValue` returns an error exactly when `Secret` is the empty
string: with an empty `Secret` it returns the empty string and the error
"secret unset", whatever `User` is, and with a non-empty `Secret` it returns no
error, whatever `User` is. -/
theorem HeaderValue_error_iff (a : BasicAuth) :
    (a.HeaderValue.2.isSome = true ↔ a.Secret = []) ∧
      (a.Secret = [] →
        a.HeaderValue = ([], some (GoError.errorString "secret unset"))) ∧
      (a.Secret ≠ [] → a.HeaderValue.2 = none) := by
  unfold BasicAuth.HeaderValue
  by_cases hs : a.Secret = []
  · simp [hs]
  · by_cases hu : a.User = [] <;> simp [hs, hu]

theorem HeaderValue_error_iff_witness :
    (BasicAuth.mk (bytes "user") []).Secret = [] ∧
      (BasicAuth.mk (bytes "user") []).HeaderValue =
        ([], some (GoError.errorString "secret unset")) ∧
      (BasicAuth.mk [] (bytes "x")).Secret ≠ [] ∧
      (BasicAuth.mk [] (bytes "x")).HeaderValue.2 = none :=
  ⟨rfl, (HeaderValue_error_iff (BasicAuth.mk (bytes "user") [])).2.1 rfl, by decide,
    (HeaderValue_error_iff (BasicAuth.mk [] (bytes "x"))).2.2 (by decide)⟩

/-- C10: for a credential with a non-empty `Secret`, `HeaderValue` returns no
error and the string "Basic " followed by a payload (the rest of the string
after these six bytes), and the standard padded base64 decoding of the payload
is `Secret` when `User` is empty and `User`, a colon, `Secret` otherwise. -/
theorem HeaderValue_round_trip (a : BasicAuth) (hs : a.Secret ≠ []) :
    a.HeaderValue.2 = none ∧
      a.HeaderValue.1 = bytes "Basic " ++ a.HeaderValue.1.drop 6 ∧
      (a.User = [] → decodeStd (a.HeaderValue.1.drop 6) = some a.Secret) ∧
      (a.User ≠ [] →
        decodeStd (a.HeaderValue.1.drop 6) = some (a.User ++ bytes ":" ++ a.Secret)) := by
  have hlen : (bytes "Basic ").length = 6 := by decide
  have hdrop : ∀ p : GoString, (bytes "Basic " ++ p).drop 6 = p := by
    intro p
    rw [← hlen, List.drop_left]
  unfold BasicAuth.HeaderValue
  rw [if_neg hs]
  by_cases hu : a.User = []
  · rw [if_pos hu]
    refine ⟨rfl, ?_, fun _ => ?_, fun h => absurd hu h⟩
    · show _ = _ ++ List.drop 6 (bytes "Basic " ++ EncodeToString a.Secret)
      rw [hdrop]
    · show decodeStd (List.drop 6 (bytes "Basic " ++ EncodeToString a.Secret)) = _
      rw [hdrop, decodeStd_EncodeToString]
  · rw [if_neg hu]
    refine ⟨rfl, ?_, fun h => absurd h hu, fun _ => ?_⟩
    · show _ = _ ++ List.drop 6 (bytes "Basic " ++ EncodeToString (a.User ++ bytes ":" ++ a.Secret))
      rw [hdrop]
    · show decodeStd (List.drop 6
        (bytes "Basic " ++ EncodeToString (a.User ++ bytes ":" ++ a.Secret))) = _
      rw [hdrop, decodeStd_EncodeToString]

theorem HeaderValue_round_trip_witness :
    (BasicAuth.mk (bytes "u") (bytes "p")).Secret ≠ [] ∧
      (BasicAuth.mk (bytes "u") (bytes "p")).HeaderValue.2 = none ∧
      (BasicAuth.mk (bytes "u") (bytes "p")).HeaderValue.1 =
        bytes "Basic " ++ (BasicAuth.mk (bytes "u") (bytes "p")).HeaderValue.1.drop 6 ∧
      decodeStd ((BasicAuth.mk (bytes "u") (bytes "p")).HeaderValue.1.drop 6) =
        some ((BasicAuth.mk (bytes "u") (bytes "p")).User ++ bytes ":" ++
          (BasicAuth.mk (bytes "u") (bytes "p")).Secret) :=
  ⟨by decide,
    (HeaderValue_round_trip (BasicAuth.mk (bytes "u") (bytes "p")) (by decide)).1,
    (HeaderValue_round_trip (BasicAuth.mk (bytes "u") (bytes "p")) (by decide)).2.1,
    (HeaderValue_round_trip (BasicAuth.mk (bytes "u") (bytes "p")) (by decide)).2.2.2
      (by decide)⟩

/-- The three examples of the specification: a lone secret "x", a user "u" with
secret "p", and an empty secret. -/
theorem HeaderValue_examples :
    (BasicAuth.mk [] (bytes "x")).HeaderValue = (bytes "Basic eA==", none) ∧
      decodeStd (bytes "eA==") = some (bytes "x") ∧
      (BasicAuth.mk (bytes "u") (bytes "p")).HeaderValue = (bytes "Basic dTpw", none) ∧
      decodeStd (bytes "dTpw") = some (bytes "u:p") ∧
      (BasicAuth.mk [] []).HeaderValue.2 = some (GoError.errorString "secret unset") := by
  decide

end Wakatime.Api

namespace Wakatime.Logfile

/-! ## Theorems: `LoadParams` -/

theorem FirstNonEmptyString_three (v : Viper) (a b c : String) :
    FirstNonEmptyString v [a, b, c] =
      if v.GetString a ≠ "" then (v.GetString a, true)
      else if v.GetString b ≠ "" then (v.GetString b, true)
      else if v.GetString c ≠ "" then (v.GetString c, true)
      else ("", false) := rfl

theorem LoadParams_of_value (env : Env) (v : Viper) (logFile p : String)
    (hfirst : env.FirstNonEmptyString v ["log-file", "logfile", "settings.log_file"] =
      (logFile, true))
    (hexp : env.Expand logFile = .ok p) :
    LoadParams env v =
      (⟨p, false, v.GetBool "verbose" ||
        (if v.IsSet "settings.debug" = true then v.GetBool "settings.debug" else false)⟩,
        none) := by
  unfold LoadParams
  simp only [hfirst, hexp, if_true]

theorem LoadParams_of_default (env : Env) (v : Viper) (s home : String)
    (hfirst : env.FirstNonEmptyString v ["log-file", "logfile", "settings.log_file"] =
      (s, false))
    (hhome : env.WakaHomeDir = .ok home) :
    LoadParams env v =
      (⟨env.Join home defaultFile, v.GetBool "log-to-stdout", v.GetBool "verbose" ||
        (if v.IsSet "settings.debug" = true then v.GetBool "settings.debug" else false)⟩,
        none) := by
  unfold LoadParams
  simp only [hfirst, hhome, Bool.false_eq_true, if_false]

theorem LoadParams_value_ignores_home (v : Viper) (expand : String → Except GoError String)
    (home1 home2 : Except GoError String) (join1 join2 : String → String → String)
    (logFile : String)
    (hfirst : FirstNonEmptyString v ["log-file", "logfile", "settings.log_file"] =
      (logFile, true)) :
    LoadParams (specEnv expand home1 join1) v = LoadParams (specEnv expand home2 join2) v := by
  unfold LoadParams specEnv
  simp only [hfirst, if_true]

/-- C11, counterexample: with `log-file` set to `~/.wakatime.log` and the home
directory `/home/user`, `LoadParams` returns the default path
`/home/user/.wakatime.log` although the three keys are not all empty; and with
all three keys empty but no home directory to be found it returns an error and
no path at all, not the default path. -/
theorem LoadParams_default_path_not_iff :
    (viperOf [("log-file", "~/.wakatime.log")] []).GetString "log-file" ≠ "" ∧
      (LoadParams exampleEnv (viperOf [("log-file", "~/.wakatime.log")] [])).2 = none ∧
      (LoadParams exampleEnv (viperOf [("log-file", "~/.wakatime.log")] [])).1.File =
        "/home/user/.wakatime.log" ∧
      exampleJoin "/home/user" defaultFile = "/home/user/.wakatime.log" ∧
      ((viperOf [] []).GetString "log-file" = "" ∧ (viperOf [] []).GetString "logfile" = "" ∧
        (viperOf [] []).GetString "settings.log_file" = "") ∧
      (LoadParams homelessEnv (viperOf [] [])).1.File = "" ∧
      (LoadParams homelessEnv (viperOf [] [])).2 =
        some (GoError.errorString "failed getting user's home directory: no home") := by
  decide

/-- C11, amended: with `FirstNonEmptyString` as modelled, `LoadParams` succeeds with
`File` the home-expanded value of `log-file` when that is non-empty, else of
`logfile` when that is non-empty, else of `settings.log_file` when that is
non-empty (whenever the expansion succeeds); when all three are empty it
succeeds with `File` the default path, `filepath.Join(home, ".wakatime.log")`
(whenever the home directory resolves); and only then is the default path
computed: as soon as one of the three is non-empty, the result is the same
whatever the home directory and the join are. -/
theorem LoadParams_log_file_precedence (v : Viper) (expand : String → Except GoError String)
    (home : Except GoError String) (join : String → String → String) :
    (∀ p : String, v.GetString "log-file" ≠ "" → expand (v.GetString "log-file") = .ok p →
      (LoadParams (specEnv expand home join) v).1.File = p ∧
        (LoadParams (specEnv expand home join) v).2 = none) ∧
    (∀ p : String, v.GetString "log-file" = "" → v.GetString "logfile" ≠ "" →
      expand (v.GetString "logfile") = .ok p →
      (LoadParams (specEnv expand home join) v).1.File = p ∧
        (LoadParams (specEnv expand home join) v).2 = none) ∧
    (∀ p : String, v.GetString "log-file" = "" → v.GetString "logfile" = "" →
      v.GetString "settings.log_file" ≠ "" →
      expand (v.GetString "settings.log_file") = .ok p →
      (LoadParams (specEnv expand home join) v).1.File = p ∧
        (LoadParams (specEnv expand home join) v).2 = none) ∧
    (∀ dir : String, v.GetString "log-file" = "" → v.GetString "logfile" = "" →
      v.GetString "settings.log_file" = "" → home = .ok dir →
      (LoadParams (specEnv expand home join) v).1.File = join dir ".wakatime.log" ∧
        (LoadParams (specEnv expand home join) v).2 = none) ∧
    (¬ (v.GetString "log-file" = "" ∧ v.GetString "logfile" = "" ∧
        v.GetString "settings.log_file" = "") →
      ∀ (home2 : Except GoError String) (join2 : String → String → String),
        LoadParams (specEnv expand home2 join2) v = LoadParams (specEnv expand home join) v) := by
  have h3 := FirstNonEmptyString_three v "log-file" "logfile" "settings.log_file"
  refine ⟨fun p h1 hexp => ?_, fun p h1 h2 hexp => ?_, fun p h1 h2 h3' hexp => ?_,
    fun dir h1 h2 h3' hhome => ?_, fun hne home2 join2 => ?_⟩
  · rw [if_pos h1] at h3
    rw [LoadParams_of_value (specEnv expand home join) v _ p h3 hexp]
    exact ⟨rfl, rfl⟩
  · rw [if_neg (by simp [h1]), if_pos h2] at h3
    rw [LoadParams_of_value (specEnv expand home join) v _ p h3 hexp]
    exact ⟨rfl, rfl⟩
  · rw [if_neg (by simp [h1]), if_neg (by simp [h2]), if_pos h3'] at h3
    rw [LoadParams_of_value (specEnv expand home join) v _ p h3 hexp]
    exact ⟨rfl, rfl⟩
  · rw [if_neg (by simp [h1]), if_neg (by simp [h2]), if_neg (by simp [h3'])] at h3
    rw [LoadParams_of_default (specEnv expand home join) v _ dir h3 hhome]
    exact ⟨rfl, rfl⟩
  · by_cases h1 : v.GetString "log-file" = ""
    · by_cases h2 : v.GetString "logfile" = ""
      · have h3' : v.GetString "settings.log_file" ≠ "" := fun h => hne ⟨h1, h2, h⟩
        rw [if_neg (by simp [h1]), if_neg (by simp [h2]), if_pos h3'] at h3
        exact LoadParams_value_ignores_home v expand home2 home join2 join _ h3
      · rw [if_neg (by simp [h1]), if_pos h2] at h3
        exact LoadParams_value_ignores_home v expand home2 home join2 join _ h3
    · rw [if_pos h1] at h3
      exact LoadParams_value_ignores_home v expand home2 home join2 join _ h3

theorem LoadParams_log_file_precedence_witness :
    (viperOf [("logfile", "~/b.log"), ("settings.log_file", "/c.log")] []).GetString "log-file"
        = "" ∧
      (viperOf [("logfile", "~/b.log"), ("settings.log_file", "/c.log")] []).GetString "logfile"
        ≠ "" ∧
      exampleExpand
        ((viperOf [("logfile", "~/b.log"), ("settings.log_file", "/c.log")] []).GetString
          "logfile") = .ok "/home/user/b.log" ∧
      (LoadParams exampleEnv
        (viperOf [("logfile", "~/b.log"), ("settings.log_file", "/c.log")] [])).1.File =
          "/home/user/b.log" ∧
      (LoadParams exampleEnv (viperOf [] [])).1.File = "/home/user/.wakatime.log" :=
  ⟨by decide, by decide, rfl,
    ((LoadParams_log_file_precedence
      (viperOf [("logfile", "~/b.log"), ("settings.log_file", "/c.log")] [])
      exampleExpand (.ok "/home/user") exampleJoin).2.1 "/home/user/b.log"
      (by decide) (by decide) rfl).1,
    ((LoadParams_log_file_precedence (viperOf [] []) exampleExpand (.ok "/home/user")
      exampleJoin).2.2.2.1 "/home/user" (by decide) (by decide) (by decide) rfl).1⟩

/-- C12: whenever `LoadParams` succeeds, on either path and whatever the
functions it calls do, `Verbose` is true exactly when `verbose` is true or
`settings.debug` is set and true. -/
theorem LoadParams_verbose (env : Env) (v : Viper) (hok : (LoadParams env v).2 = none) :
    (LoadParams env v).1.Verbose = true ↔
      (v.GetBool "verbose" = true ∨
        (v.IsSet "settings.debug" = true ∧ v.GetBool "settings.debug" = true)) := by
  unfold LoadParams at hok ⊢
  cases hr : (env.FirstNonEmptyString v ["log-file", "logfile", "settings.log_file"]).2
  · simp only [hr, Bool.false_eq_true, if_false] at hok ⊢
    cases hh : env.WakaHomeDir with
    | error e => simp [hh] at hok
    | ok dir => cases hs : v.IsSet "settings.debug" <;> simp [hs]
  · simp only [hr, if_true] at hok ⊢
    cases he : env.Expand (env.FirstNonEmptyString v
        ["log-file", "logfile", "settings.log_file"]).1 with
    | error e => simp [he] at hok
    | ok p => cases hs : v.IsSet "settings.debug" <;> simp [hs]

theorem LoadParams_verbose_witness :
    (LoadParams exampleEnv (viperOf [("log-file", "/a.log")] ["settings.debug"])).2 = none ∧
      ((LoadParams exampleEnv (viperOf [("log-file", "/a.log")] ["settings.debug"])).1.Verbose
          = true ↔
        ((viperOf [("log-file", "/a.log")] ["settings.debug"]).GetBool "verbose" = true ∨
          ((viperOf [("log-file", "/a.log")] ["settings.debug"]).IsSet "settings.debug" = true ∧
            (viperOf [("log-file", "/a.log")] ["settings.debug"]).GetBool "settings.debug"
              = true))) ∧
      (LoadParams exampleEnv (viperOf [("log-file", "/a.log")] ["settings.debug"])).1.Verbose
        = true :=
  ⟨by decide,
    LoadParams_verbose exampleEnv (viperOf [("log-file", "/a.log")] ["settings.debug"])
      (by decide),
    by decide⟩

/-- C20: when the helper reports a value for one of the three keys and the value
expands, `LoadParams` returns `ToStdout = false` whatever `log-to-stdout` is; with
`FirstNonEmptyString` as modelled this is the case as soon as one of `log-file`,
`logfile`, `settings.log_file` is non-empty and `LoadParams` succeeds. When the
helper reports no value and the home directory resolves, so that the default
path is used, `ToStdout` is the `log-to-stdout` setting. -/
theorem LoadParams_to_stdout (v : Viper) :
    (∀ (env : Env) (logFile p : String),
      env.FirstNonEmptyString v ["log-file", "logfile", "settings.log_file"] = (logFile, true) →
      env.Expand logFile = .ok p → (LoadParams env v).1.ToStdout = false) ∧
    (∀ (expand : String → Except GoError String) (home : Except GoError String)
      (join : String → String → String),
      ¬ (v.GetString "log-file" = "" ∧ v.GetString "logfile" = "" ∧
        v.GetString "settings.log_file" = "") →
      (LoadParams (specEnv expand home join) v).2 = none →
      (LoadParams (specEnv expand home join) v).1.ToStdout = false) ∧
    (∀ (env : Env) (s dir : String),
      env.FirstNonEmptyString v ["log-file", "logfile", "settings.log_file"] = (s, false) →
      env.WakaHomeDir = .ok dir →
      (LoadParams env v).1.ToStdout = v.GetBool "log-to-stdout" ∧
        (LoadParams env v).1.File = env.Join dir ".wakatime.log") := by
  refine ⟨fun env logFile p hfirst hexp => ?_, fun expand home join hne hok => ?_,
    fun env s dir hfirst hhome => ?_⟩
  · rw [LoadParams_of_value env v logFile p hfirst hexp]
  · have h3 := FirstNonEmptyString_three v "log-file" "logfile" "settings.log_file"
    have hfirst : ∃ logFile, FirstNonEmptyString v ["log-file", "logfile", "settings.log_file"]
        = (logFile, true) := by
      by_cases h1 : v.GetString "log-file" = ""
      · by_cases h2 : v.GetString "logfile" = ""
        · have h3' : v.GetString "settings.log_file" ≠ "" := fun h => hne ⟨h1, h2, h⟩
          rw [if_neg (by simp [h1]), if_neg (by simp [h2]), if_pos h3'] at h3
          exact ⟨_, h3⟩
        · rw [if_neg (by simp [h1]), if_pos h2] at h3
          exact ⟨_, h3⟩
      · rw [if_pos h1] at h3
        exact ⟨_, h3⟩
    obtain ⟨logFile, hf⟩ := hfirst
    cases hexp : expand logFile with
    | error e =>
      exfalso
      unfold LoadParams specEnv at hok
      simp [hf, hexp] at hok
    | ok p =>
      rw [LoadParams_of_value (specEnv expand home join) v logFile p hf hexp]
  · rw [LoadParams_of_default env v s dir hfirst hhome]
    exact ⟨rfl, rfl⟩

theorem LoadParams_to_stdout_witness :
    exampleEnv.FirstNonEmptyString (viperOf [("logfile", "~/b.log")] ["log-to-stdout"])
        ["log-file", "logfile", "settings.log_file"] = ("~/b.log", true) ∧
      exampleEnv.Expand "~/b.log" = .ok "/home/user/b.log" ∧
      (viperOf [("logfile", "~/b.log")] ["log-to-stdout"]).GetBool "log-to-stdout" = true ∧
      (LoadParams exampleEnv (viperOf [("logfile", "~/b.log")] ["log-to-stdout"])).1.ToStdout
        = false ∧
      (LoadParams exampleEnv (viperOf [] ["log-to-stdout"])).1.ToStdout = true :=
  ⟨by decide, rfl, by decide,
    (LoadParams_to_stdout (viperOf [("logfile", "~/b.log")] ["log-to-stdout"])).1 exampleEnv
      "~/b.log" "/home/user/b.log" (by decide) rfl,
    ((LoadParams_to_stdout (viperOf [] ["log-to-stdout"])).2.2 exampleEnv "" "/home/user"
      (by decide) rfl).1⟩

end Wakatime.Logfile

namespace Wakatime.HeartbeatPkg

/-! ## The cases of `sanitize_test.go`, checked on the model -/

/-- The three cases of `TestSanitize_Obfuscate`. -/
theorem TestSanitize_Obfuscate :
    Sanitize testHeartbeat ⟨[anything], [], []⟩ =
        { testHeartbeat with
          Branch := none, CursorPosition := none, Dependencies := none,
          Entity := "HIDDEN.go", LineNumber := none, Lines := none } ∧
      Sanitize appHeartbeat ⟨[anything], [], []⟩ = { appHeartbeat with Entity := "HIDDEN" } ∧
      Sanitize domainHeartbeat ⟨[anything], [], []⟩ =
        { domainHeartbeat with Entity := "HIDDEN" } := by
  decide

/-- The cases `TestSanitize_ObfuscateFile_SkipBranchIfNotMatching` and
`TestSanitize_ObfuscateFile_NilFields`. -/
theorem TestSanitize_ObfuscateFile :
    Sanitize testHeartbeat ⟨[anything], [containing "not_matching"], []⟩ =
        { testHeartbeat with
          CursorPosition := none, Dependencies := none,
          Entity := "HIDDEN.go", LineNumber := none, Lines := none } ∧
      Sanitize { testHeartbeat with Branch := none } ⟨[anything], [anything], []⟩ =
        { testHeartbeat with
          Branch := none, CursorPosition := none, Dependencies := none,
          Entity := "HIDDEN.go", LineNumber := none, Lines := none } := by
  decide

/-- The cases `TestSanitize_ObfuscateProject`,
`TestSanitize_ObfuscateProject_SkipBranchIfNotMatching` and
`TestSanitize_ObfuscateProject_NilFields`. -/
theorem TestSanitize_ObfuscateProject :
    Sanitize testHeartbeat ⟨[], [], [anything]⟩ =
        { testHeartbeat with
          Branch := none, CursorPosition := none, Dependencies := none,
          LineNumber := none, Lines := none } ∧
      Sanitize testHeartbeat ⟨[], [containing "not_matching"], [anything]⟩ =
        { testHeartbeat with
          CursorPosition := none, Dependencies := none,
          LineNumber := none, Lines := none } ∧
      Sanitize { testHeartbeat with Branch := none } ⟨[], [anything], [anything]⟩ =
        { testHeartbeat with
          Branch := none, CursorPosition := none, Dependencies := none,
          LineNumber := none, Lines := none } := by
  decide

/-- The cases `TestSanitize_ObfuscateBranch` and
`TestSanitize_ObfuscateBranch_NilFields`. -/
theorem TestSanitize_ObfuscateBranch :
    Sanitize testHeartbeat ⟨[], [anything], []⟩ = { testHeartbeat with Branch := none } ∧
      Sanitize { testHeartbeat with Branch := none, Project := none } ⟨[], [anything], []⟩ =
        { testHeartbeat with Branch := none, Project := none } := by
  decide

/-- The cases `TestSanitize_EmptyConfigDoNothing` and
`TestSanitize_EmptyConfigDoNothing_EmptyDependencies`: in the second the input
has the empty slice for `Dependencies` and the expected heartbeat has none. -/
theorem TestSanitize_EmptyConfigDoNothing :
    Sanitize testHeartbeat emptyConfig = testHeartbeat ∧
      Sanitize { testHeartbeat with Dependencies := some [] } emptyConfig =
        { testHeartbeat with Dependencies := none } := by
  decide

/-- The three cases of `TestShouldSanitize`. -/
theorem TestShouldSanitize :
    ShouldSanitize "fix.123" [containing "fix"] = true ∧
      ShouldSanitize "fix.456" [containing "bar", containing "fix"] = true ∧
      ShouldSanitize "foo" [containing "bar", containing "fix"] = false := by
  decide

/-! ## Theorems: `Sanitize` -/

theorem normalizeDependencies_of_ne (h : Heartbeat) (hd : h.Dependencies ≠ some []) :
    normalizeDependencies h = h := by
  unfold normalizeDependencies
  split
  · next heq => exact absurd heq hd
  · rfl

theorem normalizeDependencies_of_eq (h : Heartbeat) (hd : h.Dependencies = some []) :
    normalizeDependencies h = { h with Dependencies := none } := by
  unfold normalizeDependencies
  rw [hd]

theorem Sanitize_emptyConfig_eq (h : Heartbeat) :
    Sanitize h emptyConfig = normalizeDependencies h := by
  unfold Sanitize emptyConfig
  simp only [ShouldSanitize, Bool.false_eq_true, if_false]
  cases hp : h.Project <;> cases hb : h.Branch <;> simp

theorem sanitizeBranch_other_fields (h : Heartbeat) (config : SanitizeConfig) :
    sanitizeBranch h config = { h with Branch := (sanitizeBranch h config).Branch } := by
  rcases h with ⟨_ | b, _, _, _, _, _, _, _, _, _, _, _, _⟩
  · rfl
  · simp only [sanitizeBranch]
    split <;> rfl

theorem sanitizeBranch_branch (h : Heartbeat) (config : SanitizeConfig) :
    (config.BranchPatterns = [] → (sanitizeBranch h config).Branch = none) ∧
      (∀ b : String, h.Branch = some b → ShouldSanitize b config.BranchPatterns = true →
        (sanitizeBranch h config).Branch = none) ∧
      (∀ b : String, h.Branch = some b → config.BranchPatterns ≠ [] →
        ShouldSanitize b config.BranchPatterns = false →
        (sanitizeBranch h config).Branch = some b) ∧
      (h.Branch = none → (sanitizeBranch h config).Branch = none) := by
  unfold sanitizeBranch
  refine ⟨fun he => ?_, fun b hb hm => ?_, fun b hb hne hm => ?_, fun hb => ?_⟩
  · cases hb : h.Branch <;> simp [hb, he]
  · simp [hb, hm]
  · simp [hb, hm, hne]
  · simp [hb]

theorem Sanitize_of_entity (h : Heartbeat) (config : SanitizeConfig)
    (hm : ShouldSanitize h.Entity config.FilePatterns = true) :
    Sanitize h config =
      sanitizeBranch (sanitizeMetaData { h with
        Entity := if h.EntityType = EntityType.file then "HIDDEN" ++ Ext h.Entity
          else "HIDDEN" }) config := by
  unfold Sanitize
  simp only [hm, if_true]

theorem Sanitize_of_project (h : Heartbeat) (config : SanitizeConfig) (project : String)
    (hno : ShouldSanitize h.Entity config.FilePatterns = false)
    (hp : h.Project = some project)
    (hm : ShouldSanitize project config.ProjectPatterns = true) :
    Sanitize h config = sanitizeBranch (sanitizeMetaData h) config := by
  unfold Sanitize
  simp only [hno, hp, hm, Bool.false_eq_true, if_false, if_true]

theorem Sanitize_of_branch (h : Heartbeat) (config : SanitizeConfig) (branch : String)
    (hno : ShouldSanitize h.Entity config.FilePatterns = false)
    (hnp : ∀ project : String, h.Project = some project →
      ShouldSanitize project config.ProjectPatterns = false)
    (hb : h.Branch = some branch)
    (hm : ShouldSanitize branch config.BranchPatterns = true) :
    Sanitize h config = { h with Branch := none } := by
  unfold Sanitize
  simp only [hno, hb, hm, Bool.false_eq_true, if_false, if_true]
  cases hp : h.Project with
  | none => simp
  | some project => simp [hnp project hp]

theorem Sanitize_of_nothing (h : Heartbeat) (config : SanitizeConfig)
    (hno : ShouldSanitize h.Entity config.FilePatterns = false)
    (hnp : ∀ project : String, h.Project = some project →
      ShouldSanitize project config.ProjectPatterns = false)
    (hnb : ∀ branch : String, h.Branch = some branch →
      ShouldSanitize branch config.BranchPatterns = false)
    (hset : config.BranchPatterns ≠ []) :
    Sanitize h config = h := by
  have hlen : ¬ config.BranchPatterns.length = 0 := by
    intro h0
    exact hset (List.length_eq_zero.mp h0)
  unfold Sanitize
  simp only [hno, Bool.false_eq_true, if_false, hlen, false_and, and_false]
  cases hp : h.Project with
  | none =>
    cases hb : h.Branch with
    | none => simp
    | some branch => simp [hnb branch hb]
  | some project =>
    cases hb : h.Branch with
    | none => simp [hnp project hp]
    | some branch => simp [hnp project hp, hnb branch hb]

/-- C13, counterexample: the heartbeat of
`TestSanitize_EmptyConfigDoNothing_EmptyDependencies` has a present, empty
`Dependencies`; with the empty configuration `Sanitize` returns it with
`Dependencies` absent, which is not the input. -/
theorem Sanitize_emptyConfig_not_identity :
    emptyDependenciesHeartbeat.Dependencies = some [] ∧
      (Sanitize emptyDependenciesHeartbeat emptyConfig).Dependencies = none ∧
      Sanitize emptyDependenciesHeartbeat emptyConfig ≠ emptyDependenciesHeartbeat := by
  decide

/-- C13, amended: with the empty configuration `Sanitize` returns the heartbeat
itself when `Dependencies` is absent or non-empty, and the heartbeat with
`Dependencies` made absent, every other field as in the input, when
`Dependencies` is present and empty. -/
theorem Sanitize_emptyConfig (h : Heartbeat) :
    (h.Dependencies ≠ some [] → Sanitize h emptyConfig = h) ∧
      (h.Dependencies = some [] → Sanitize h emptyConfig = { h with Dependencies := none }) := by
  constructor
  · intro hd
    rw [Sanitize_emptyConfig_eq, normalizeDependencies_of_ne h hd]
  · intro hd
    rw [Sanitize_emptyConfig_eq, normalizeDependencies_of_eq h hd]

theorem Sanitize_emptyConfig_witness :
    testHeartbeat.Dependencies ≠ some [] ∧ Sanitize testHeartbeat emptyConfig = testHeartbeat ∧
      emptyDependenciesHeartbeat.Dependencies = some [] ∧
      Sanitize emptyDependenciesHeartbeat emptyConfig =
        { emptyDependenciesHeartbeat with Dependencies := none } :=
  ⟨by decide, (Sanitize_emptyConfig testHeartbeat).1 (by decide), by decide,
    (Sanitize_emptyConfig emptyDependenciesHeartbeat).2 (by decide)⟩

/-- C14, counterexample: on the file heartbeat of `TestSanitize_Obfuscate`, whose
entity matches the file pattern, `Sanitize` keeps `Project`; and with a branch
pattern that does not match (`TestSanitize_ObfuscateFile_SkipBranchIfNotMatching`)
it keeps `Branch` too. -/
theorem Sanitize_file_keeps_project :
    testHeartbeat.EntityType = EntityType.file ∧
      ShouldSanitize testHeartbeat.Entity [anything] = true ∧
      (Sanitize testHeartbeat ⟨[anything], [], []⟩).Project = some "wakatime" ∧
      (Sanitize testHeartbeat ⟨[anything], [], []⟩).Project ≠ none ∧
      (Sanitize testHeartbeat ⟨[anything], [containing "not_matching"], []⟩).Branch =
        some "heartbeat" := by
  decide

/-- C14, amended: for a heartbeat of entity type file whose entity matches a
file pattern, whatever the branch and project patterns, `Sanitize` returns a
heartbeat whose entity is "HIDDEN" followed by the extension of the original
entity, whose `CursorPosition`, `Dependencies`, `LineNumber` and `Lines` are
absent, whose `Project` is unchanged, whose `Branch` is absent when there are no
branch patterns or when one of them matches it and unchanged otherwise, and
whose `Category`, `EntityType`, `IsWrite`, `Language`, `Time` and `UserAgent`
are unchanged. -/
theorem Sanitize_file_entity (h : Heartbeat) (config : SanitizeConfig)
    (hfile : h.EntityType = EntityType.file)
    (hm : ShouldSanitize h.Entity config.FilePatterns = true) :
    (Sanitize h config).Entity = "HIDDEN" ++ Ext h.Entity ∧
      (Sanitize h config).CursorPosition = none ∧
      (Sanitize h config).Dependencies = none ∧
      (Sanitize h config).LineNumber = none ∧
      (Sanitize h config).Lines = none ∧
      (Sanitize h config).Project = h.Project ∧
      (config.BranchPatterns = [] → (Sanitize h config).Branch = none) ∧
      (∀ b : String, h.Branch = some b → ShouldSanitize b config.BranchPatterns = true →
        (Sanitize h config).Branch = none) ∧
      (∀ b : String, h.Branch = some b → config.BranchPatterns ≠ [] →
        ShouldSanitize b config.BranchPatterns = false →
        (Sanitize h config).Branch = some b) ∧
      (h.Branch = none → (Sanitize h config).Branch = none) ∧
      (Sanitize h config).Category = h.Category ∧
      (Sanitize h config).EntityType = h.EntityType ∧
      (Sanitize h config).IsWrite = h.IsWrite ∧
      (Sanitize h config).Language = h.Language ∧
      (Sanitize h config).Time = h.Time ∧
      (Sanitize h config).UserAgent = h.UserAgent := by
  have hb := sanitizeBranch_branch (sanitizeMetaData { h with
    Entity := if h.EntityType = EntityType.file then "HIDDEN" ++ Ext h.Entity
      else "HIDDEN" }) config
  have hg : (sanitizeMetaData { h with
      Entity := if h.EntityType = EntityType.file then "HIDDEN" ++ Ext h.Entity
        else "HIDDEN" }).Branch = h.Branch := rfl
  rw [Sanitize_of_entity h config hm]
  refine ⟨?_, ?_, ?_, ?_, ?_, ?_, hb.1, fun b hbb hmm => hb.2.1 b (hg.trans hbb) hmm,
    fun b hbb hne hmm => hb.2.2.1 b (hg.trans hbb) hne hmm,
    fun hbb => hb.2.2.2 (hg.trans hbb), ?_, ?_, ?_, ?_, ?_, ?_⟩ <;>
    rw [sanitizeBranch_other_fields] <;> simp [sanitizeMetaData, hfile]

theorem Sanitize_file_entity_witness :
    testHeartbeat.EntityType = EntityType.file ∧
      ShouldSanitize testHeartbeat.Entity [anything] = true ∧
      (Sanitize testHeartbeat ⟨[anything], [containing "not_matching"], []⟩).Entity =
        "HIDDEN" ++ Ext testHeartbeat.Entity ∧
      "HIDDEN" ++ Ext testHeartbeat.Entity = "HIDDEN.go" ∧
      (Sanitize testHeartbeat ⟨[anything], [containing "not_matching"], []⟩).Project =
        testHeartbeat.Project ∧
      (Sanitize testHeartbeat ⟨[anything], [containing "not_matching"], []⟩).Branch =
        some "heartbeat" :=
  ⟨by decide, by decide,
    (Sanitize_file_entity testHeartbeat ⟨[anything], [containing "not_matching"], []⟩
      (by decide) (by decide)).1,
    by decide,
    (Sanitize_file_entity testHeartbeat ⟨[anything], [containing "not_matching"], []⟩
      (by decide) (by decide)).2.2.2.2.2.1,
    (Sanitize_file_entity testHeartbeat ⟨[anything], [containing "not_matching"], []⟩
      (by decide) (by decide)).2.2.2.2.2.2.2.2.1 "heartbeat" (by decide)
      (List.cons_ne_nil _ _) (by decide)⟩

/-- C15: for a heartbeat of entity type app or domain whose entity matches a
file pattern (the pattern set of the tests), `Sanitize` returns the entity
"HIDDEN", with no extension even when the entity contains a dot, and leaves
`Category`, `EntityType`, `Time` and `UserAgent` unchanged. -/
theorem Sanitize_app_domain_entity (h : Heartbeat) (config : SanitizeConfig)
    (htype : h.EntityType = EntityType.app ∨ h.EntityType = EntityType.domain)
    (hm : ShouldSanitize h.Entity config.FilePatterns = true) :
    (Sanitize h config).Entity = "HIDDEN" ∧
      (Sanitize h config).Category = h.Category ∧
      (Sanitize h config).EntityType = h.EntityType ∧
      (Sanitize h config).Time = h.Time ∧
      (Sanitize h config).UserAgent = h.UserAgent := by
  have hnot : ¬ h.EntityType = EntityType.file := by
    rcases htype with ht | ht <;> rw [ht] <;> decide
  rw [Sanitize_of_entity h config hm]
  refine ⟨?_, ?_, ?_, ?_, ?_⟩ <;>
    rw [sanitizeBranch_other_fields] <;> simp [sanitizeMetaData, hnot]

theorem Sanitize_app_domain_entity_witness :
    (domainHeartbeat.EntityType = EntityType.app ∨
        domainHeartbeat.EntityType = EntityType.domain) ∧
      ShouldSanitize domainHeartbeat.Entity [anything] = true ∧
      domainHeartbeat.Entity = "wakatime.com" ∧
      (Sanitize domainHeartbeat ⟨[anything], [], []⟩).Entity = "HIDDEN" ∧
      (Sanitize appHeartbeat ⟨[anything], [], []⟩).Entity = "HIDDEN" :=
  ⟨by decide, by decide, by decide,
    (Sanitize_app_domain_entity domainHeartbeat ⟨[anything], [], []⟩ (by decide)
      (by decide)).1,
    (Sanitize_app_domain_entity appHeartbeat ⟨[anything], [], []⟩ (by decide) (by decide)).1⟩

/-- C16, counterexample: on the heartbeat of `TestSanitize_ObfuscateProject`,
whose project matches the project pattern and whose entity matches no file
pattern, `Sanitize` returns `CursorPosition`, `Dependencies`, `LineNumber` and
`Lines` absent although the input has them. -/
theorem Sanitize_project_clears_metadata :
    testHeartbeat.Project = some "wakatime" ∧
      ShouldSanitize "wakatime" [anything] = true ∧
      ShouldSanitize testHeartbeat.Entity [] = false ∧
      testHeartbeat.CursorPosition = some 12 ∧
      (Sanitize testHeartbeat ⟨[], [], [anything]⟩).CursorPosition = none ∧
      (Sanitize testHeartbeat ⟨[], [], [anything]⟩).Dependencies = none ∧
      (Sanitize testHeartbeat ⟨[], [], [anything]⟩).LineNumber = none ∧
      (Sanitize testHeartbeat ⟨[], [], [anything]⟩).Lines = none ∧
      Sanitize testHeartbeat ⟨[], [], [anything]⟩ ≠ { testHeartbeat with Branch := none } := by
  decide

/-- C16, amended: for a heartbeat whose project matches a project pattern and
whose entity matches no file pattern, `Sanitize` returns a heartbeat whose
`CursorPosition`, `Dependencies`, `LineNumber` and `Lines` are absent, whose
`Branch` is absent when there are no branch patterns or when one of them matches
it and unchanged otherwise, and whose other fields, `Entity` and `Project`
among them, are unchanged. -/
theorem Sanitize_project (h : Heartbeat) (config : SanitizeConfig) (project : String)
    (hp : h.Project = some project)
    (hm : ShouldSanitize project config.ProjectPatterns = true)
    (hno : ShouldSanitize h.Entity config.FilePatterns = false) :
    (Sanitize h config).CursorPosition = none ∧
      (Sanitize h config).Dependencies = none ∧
      (Sanitize h config).LineNumber = none ∧
      (Sanitize h config).Lines = none ∧
      (config.BranchPatterns = [] → (Sanitize h config).Branch = none) ∧
      (∀ b : String, h.Branch = some b → ShouldSanitize b config.BranchPatterns = true →
        (Sanitize h config).Branch = none) ∧
      (∀ b : String, h.Branch = some b → config.BranchPatterns ≠ [] →
        ShouldSanitize b config.BranchPatterns = false →
        (Sanitize h config).Branch = some b) ∧
      (h.Branch = none → (Sanitize h config).Branch = none) ∧
      (Sanitize h config).Entity = h.Entity ∧
      (Sanitize h config).Project = h.Project ∧
      (Sanitize h config).Category = h.Category ∧
      (Sanitize h config).EntityType = h.EntityType ∧
      (Sanitize h config).IsWrite = h.IsWrite ∧
      (Sanitize h config).Language = h.Language ∧
      (Sanitize h config).Time = h.Time ∧
      (Sanitize h config).UserAgent = h.UserAgent := by
  have hb := sanitizeBranch_branch (sanitizeMetaData h) config
  have hg : (sanitizeMetaData h).Branch = h.Branch := rfl
  rw [Sanitize_of_project h config project hno hp hm]
  refine ⟨?_, ?_, ?_, ?_, hb.1, fun b hbb hmm => hb.2.1 b (hg.trans hbb) hmm,
    fun b hbb hne hmm => hb.2.2.1 b (hg.trans hbb) hne hmm,
    fun hbb => hb.2.2.2 (hg.trans hbb), ?_, ?_, ?_, ?_, ?_, ?_, ?_, ?_⟩ <;>
    rw [sanitizeBranch_other_fields] <;> simp [sanitizeMetaData]

theorem Sanitize_project_witness :
    testHeartbeat.Project = some "wakatime" ∧
      ShouldSanitize "wakatime" [anything] = true ∧
      ShouldSanitize testHeartbeat.Entity [] = false ∧
      (Sanitize testHeartbeat ⟨[], [], [anything]⟩).CursorPosition = none ∧
      (Sanitize testHeartbeat ⟨[], [], [anything]⟩).Branch = none ∧
      (Sanitize testHeartbeat ⟨[], [], [anything]⟩).Entity = testHeartbeat.Entity ∧
      (Sanitize testHeartbeat ⟨[], [], [anything]⟩).Project = testHeartbeat.Project :=
  ⟨by decide, by decide, by decide,
    (Sanitize_project testHeartbeat ⟨[], [], [anything]⟩ "wakatime" (by decide) (by decide)
      (by decide)).1,
    (Sanitize_project testHeartbeat ⟨[], [], [anything]⟩ "wakatime" (by decide) (by decide)
      (by decide)).2.2.2.2.1 rfl,
    (Sanitize_project testHeartbeat ⟨[], [], [anything]⟩ "wakatime" (by decide) (by decide)
      (by decide)).2.2.2.2.2.2.2.2.1,
    (Sanitize_project testHeartbeat ⟨[], [], [anything]⟩ "wakatime" (by decide) (by decide)
      (by decide)).2.2.2.2.2.2.2.2.2.1⟩

/-- C17: with only branch patterns set (a non-empty list of them, no file and
no project patterns), `Sanitize` returns the heartbeat unchanged when `Branch`
is absent or matches no branch pattern, and the heartbeat with only `Branch`
made absent, every other field unchanged, when `Branch` is present and matches
a branch pattern. An absent `Branch` is no failure: `Sanitize` is total. -/
theorem Sanitize_branch_only (h : Heartbeat) (patterns : List Regex) (hset : patterns ≠ []) :
    (h.Branch = none → Sanitize h ⟨[], patterns, []⟩ = h) ∧
      (∀ b : String, h.Branch = some b → ShouldSanitize b patterns = false →
        Sanitize h ⟨[], patterns, []⟩ = h) ∧
      (∀ b : String, h.Branch = some b → ShouldSanitize b patterns = true →
        Sanitize h ⟨[], patterns, []⟩ = { h with Branch := none }) := by
  refine ⟨fun hb => ?_, fun b hb hm => ?_, fun b hb hm => ?_⟩
  · exact Sanitize_of_nothing h _ rfl (fun _ _ => rfl)
      (fun b hbb => by rw [hb] at hbb; cases hbb) hset
  · refine Sanitize_of_nothing h _ rfl (fun _ _ => rfl) (fun b0 hbb => ?_) hset
    rw [hb] at hbb
    cases hbb
    exact hm
  · exact Sanitize_of_branch h _ b rfl (fun _ _ => rfl) hb hm

theorem Sanitize_branch_only_witness :
    [containing "not_matching"] ≠ [] ∧
      testHeartbeat.Branch = some "heartbeat" ∧
      ShouldSanitize "heartbeat" [containing "not_matching"] = false ∧
      Sanitize testHeartbeat ⟨[], [containing "not_matching"], []⟩ = testHeartbeat ∧
      ShouldSanitize "heartbeat" [anything] = true ∧
      Sanitize testHeartbeat ⟨[], [anything], []⟩ = { testHeartbeat with Branch := none } ∧
      ({ testHeartbeat with Branch := none, Project := none } : Heartbeat).Branch = none ∧
      Sanitize { testHeartbeat with Branch := none, Project := none } ⟨[], [anything], []⟩ =
        { testHeartbeat with Branch := none, Project := none } :=
  ⟨List.cons_ne_nil _ _, by decide, by decide,
    (Sanitize_branch_only testHeartbeat [containing "not_matching"]
      (List.cons_ne_nil _ _)).2.1 "heartbeat" (by decide) (by decide),
    by decide,
    (Sanitize_branch_only testHeartbeat [anything] (List.cons_ne_nil _ _)).2.2 "heartbeat"
      (by decide) (by decide),
    by decide,
    (Sanitize_branch_only { testHeartbeat with Branch := none, Project := none } [anything]
      (List.cons_ne_nil _ _)).1 (by decide)⟩

/-- C18: `ShouldSanitize` is true exactly when some pattern of the list matches
the subject; the answer does not depend on the order of the patterns, and for
the empty list it is false for every subject. -/
theorem ShouldSanitize_iff (subject : String) (patterns : List Regex) :
    (ShouldSanitize subject patterns = true ↔
        ∃ p, p ∈ patterns ∧ p.MatchString subject = true) ∧
      (∀ reordered : List Regex, reordered.Perm patterns →
        ShouldSanitize subject reordered = ShouldSanitize subject patterns) ∧
      ShouldSanitize subject [] = false := by
  have key : ∀ ps : List Regex, ShouldSanitize subject ps = true ↔
      ∃ p, p ∈ ps ∧ p.MatchString subject = true := by
    intro ps
    induction ps with
    | nil => simp [ShouldSanitize]
    | cons p ps ih =>
      unfold ShouldSanitize
      by_cases hp : p.MatchString subject = true
      · simp [hp]
      · simp [hp, ih]
  refine ⟨key patterns, fun reordered hperm => ?_, rfl⟩
  have hiff : ShouldSanitize subject reordered = true ↔ ShouldSanitize subject patterns = true := by
    rw [key, key]
    constructor
    · rintro ⟨p, hp, hm⟩
      exact ⟨p, hperm.mem_iff.mp hp, hm⟩
    · rintro ⟨p, hp, hm⟩
      exact ⟨p, hperm.mem_iff.mpr hp, hm⟩
  cases h1 : ShouldSanitize subject reordered <;> cases h2 : ShouldSanitize subject patterns <;>
    simp_all

theorem ShouldSanitize_iff_witness :
    [containing "fix", containing "bar"].Perm [containing "bar", containing "fix"] ∧
      ShouldSanitize "fix.456" [containing "fix", containing "bar"] =
        ShouldSanitize "fix.456" [containing "bar", containing "fix"] ∧
      ShouldSanitize "fix.456" [containing "bar", containing "fix"] = true ∧
      ShouldSanitize "fix.456" [] = false :=
  ⟨List.Perm.swap _ _ _,
    (ShouldSanitize_iff "fix.456" [containing "bar", containing "fix"]).2.1 _
      (List.Perm.swap _ _ _),
    by decide,
    (ShouldSanitize_iff "fix.456" []).2.2⟩

end Wakatime.HeartbeatPkg

namespace Wakatime.Backoff

/-! ## Theorems: the shape of the persisted state -/

theorem backoffKeys_eq {W : Type} (rt : Runtime W) (retries : Int) (atTime : Time) :
    backoffKeys rt retries atTime =
      if atTime.IsZero = false then [(keyRetries, Itoa retries), (keyAt, rt.FormatDate atTime)]
      else [(keyRetries, Itoa retries), (keyAt, "")] := by
  have hne : ¬ keyRetries = keyAt := by decide
  unfold backoffKeys
  cases atTime.IsZero <;> simp [KeyMap.assign, hne]

theorem updateBackoffSettings_writes {W H : Type} (rt : Runtime W) (v : Store W)
    (retries : Int) (atTime : Time) (w : W) :
    writes (@updateBackoffSettings W H rt v retries atTime w).2.2 =
      match v.InternalFilePath w with
      | .ok file => [(file, backoffKeys rt retries atTime)]
      | .error _ => [] := by
  cases hp : v.InternalFilePath w with
  | ok file =>
    rw [(updateBackoffSettings_ok rt v retries atTime w file hp).1, backoffKeys_eq]
  | error e =>
    rw [(updateBackoffSettings_error rt v retries atTime w e hp).1]
    rfl

theorem WithBackoff_writes_eq {W H R : Type} (rt : Runtime W) (c : Config W)
    (next : Handle W H R) (hh : Slice H) (w : W) :
    writes (WithBackoff rt c next hh w).trace =
      match updateRequest rt c next hh w, c.V.InternalFilePath (next hh w).2 with
      | some st, .ok file => [(file, backoffKeys rt st.1 st.2)]
      | _, _ => [] := by
  unfold updateRequest
  cases hveto : shouldBackoff rt.platform (rt.Now w) c.Retries c.At
  · rw [if_neg (by simp)]
    cases herr : (next hh w).1.2 with
    | some e =>
      rw [WithBackoff_eq_of_error rt c next hh w e hveto herr]
      simp only [writes, updateBackoffSettings_writes]
      cases c.V.InternalFilePath (next hh w).2 <;> rfl
    | none =>
      cases hz : c.At.IsZero
      · rw [WithBackoff_eq_of_reset rt c next hh w hveto herr hz]
        simp only [writes, updateBackoffSettings_writes]
        cases c.V.InternalFilePath (next hh w).2 <;> rfl
      · rw [WithBackoff_eq_of_idle rt c next hh w hveto herr hz]
        simp [writes]
  · rw [if_pos rfl, WithBackoff_eq_of_veto rt c next hh w hveto]
    simp [writes]

theorem updateRequest_shape {W H R : Type} (rt : Runtime W) (c : Config W)
    (next : Handle W H R) (hh : Slice H) (w : W) (st : Int × Time)
    (hreq : updateRequest rt c next hh w = some st) :
    (st = (0, Time.zero) ∧ (next hh w).1.2 = none ∧ c.At.IsZero = false) ∨
      (st = (intAdd c.Retries 1, rt.Now (next hh w).2) ∧ ∃ e, (next hh w).1.2 = some e) := by
  unfold updateRequest at hreq
  split at hreq
  · cases hreq
  · split at hreq
    · next e he =>
      right
      exact ⟨(Option.some.inj hreq).symm, e, he⟩
    · next he =>
      split at hreq
      · next hz =>
        left
        exact ⟨(Option.some.inj hreq).symm, he, hz⟩
      · cases hreq

/-- The shape of the persisted state short of the overflow of the counter: from
any state with `0 ≤ retries` and `retries` below the greatest `int`, and with a
clock that does not read the zero time, every write a run of the guard asks of
the store has one of two shapes: the reset `backoff_retries = "0"`,
`backoff_at = ""` (state `(0, unset)`), or the failure
`backoff_retries = Itoa (retries + 1)` with `retries + 1 ≥ 1` and `backoff_at`
the formatted current time, which is set (state `(retries + 1, now)`). Hence
every state reachable from the idle state by successive runs whose counter
stays below the greatest `int` is either idle (`retries = 0`, `at` unset) or
backing off (`retries ≥ 1`, `at` set). -/
theorem WithBackoff_state_shape_in_range {W H R : Type} (rt : Runtime W) :
    (∀ (c : Config W) (next : Handle W H R) (hh : Slice H) (w : W) (file : String)
      (keys : KeyMap),
      0 ≤ c.Retries → c.Retries < maxInt → (rt.Now (next hh w).2).IsZero = false →
      (file, keys) ∈ writes (WithBackoff rt c next hh w).trace →
      (keys = [(keyRetries, "0"), (keyAt, "")] ∧
        updateRequest rt c next hh w = some (0, Time.zero)) ∨
      (keys = [(keyRetries, Itoa (c.Retries + 1)),
          (keyAt, rt.FormatDate (rt.Now (next hh w).2))] ∧
        1 ≤ c.Retries + 1 ∧
        updateRequest rt c next hh w = some (c.Retries + 1, rt.Now (next hh w).2))) ∧
    (∀ (retries : Int) (atTime : Time), Reachable H R rt retries atTime →
      (retries = 0 ∧ atTime.IsZero = true) ∨ (1 ≤ retries ∧ atTime.IsZero = false)) := by
  have hitoa : Itoa 0 = "0" := by decide
  have hzero : Time.zero.IsZero = true := by decide
  constructor
  · intro c next hh w file keys hret hlt hclock hmem
    have hadd : intAdd c.Retries 1 = c.Retries + 1 :=
      intAdd_one_of_lt c.Retries (by omega) hlt
    rw [WithBackoff_writes_eq] at hmem
    cases hreq : updateRequest rt c next hh w with
    | none => simp [hreq] at hmem
    | some st =>
      cases hpath : c.V.InternalFilePath (next hh w).2 with
      | error e => simp [hreq, hpath] at hmem
      | ok file0 =>
        simp only [hreq, hpath, List.mem_singleton, Prod.mk.injEq] at hmem
        rcases updateRequest_shape rt c next hh w st hreq with ⟨hst, _, _⟩ | ⟨hst, _⟩
        · left
          rw [hmem.2, hst, backoffKeys_eq]
          simp [hzero, hitoa]
        · right
          rw [hadd] at hst
          rw [hmem.2, hst, backoffKeys_eq]
          simp only [hclock, if_true, true_and, and_true]
          omega
  · intro retries atTime hreach
    induction hreach with
    | idle => exact Or.inl ⟨rfl, hzero⟩
    | step n t v next hh w n2 t2 _ hlt hclock hreq ih =>
      have hn : 0 ≤ n := by
        rcases ih with ⟨h0, _⟩ | ⟨h1, _⟩ <;> omega
      have hadd : intAdd n 1 = n + 1 := intAdd_one_of_lt n (by omega) hlt
      rcases updateRequest_shape rt ⟨t, n, v⟩ next hh w (n2, t2) hreq with ⟨hst, _, _⟩ | ⟨hst, _⟩
      · left
        rw [Prod.mk.injEq] at hst
        exact ⟨hst.1, by rw [hst.2]; exact hzero⟩
      · right
        rw [Prod.mk.injEq] at hst
        simp only [hadd] at hst
        exact ⟨by rw [hst.1]; omega, by rw [hst.2]; exact hclock⟩

/-- The shape on the worked example: after five retries a sixth failure writes
the state `(6, now)`, and one failure from the idle state leads to the state
`(1, now)`, which is reachable and backing off. -/
theorem WithBackoff_state_shape_five_retries :
    ("/home/user/.wakatime-internal.cfg",
          [(keyRetries, "6"), (keyAt, "63721198862000000000")]) ∈
        writes (WithBackoff exampleRuntime ⟨exampleAt, 5, workingStore⟩ failingNext
          (some [1, 2]) lateWorld).trace ∧
      updateRequest exampleRuntime ⟨exampleAt, 5, workingStore⟩ failingNext (some [1, 2])
        lateWorld = some (6, Time.mk 63721198862000000000) ∧
      Reachable Nat Nat exampleRuntime 1 (Time.mk (lateWorld.clock + 2 * Second)) ∧
      (((1 : Int) = 0 ∧ (Time.mk (lateWorld.clock + 2 * Second)).IsZero = true) ∨
        ((1 : Int) ≤ 1 ∧ (Time.mk (lateWorld.clock + 2 * Second)).IsZero = false)) :=
  ⟨by decide, by decide,
    Reachable.step 0 Time.zero workingStore failingNext (some [1, 2]) lateWorld 1
      (Time.mk (lateWorld.clock + 2 * Second)) Reachable.idle (by decide) (by decide)
      (by decide),
    (@WithBackoff_state_shape_in_range ExampleWorld Nat Nat exampleRuntime).2 1
      (Time.mk (lateWorld.clock + 2 * Second))
      (Reachable.step 0 Time.zero workingStore failingNext (some [1, 2]) lateWorld 1
        (Time.mk (lateWorld.clock + 2 * Second)) Reachable.idle (by decide) (by decide)
        (by decide))⟩

/-- C19, the code at the failing input: from the state with `retries` the
greatest `int` (9223372036854775807, which is `≥ 0`) and a set `at`, with the
clock 4000 seconds later and not at the zero time, the guard does not veto; the
wrapped operation fails and the guard asks the store to write the state
`(-9223372036854775808, now)`: `backoff_retries = "-9223372036854775808"` with
`backoff_at` set. This state is neither `(retries = 0, at unset)` nor
`(retries ≥ 1, at set)`. -/
theorem WithBackoff_state_counter_overflow :
    (0 : Int) ≤ maxInt ∧
      exampleAt.IsZero = false ∧
      shouldBackoff exampleRuntime.platform (exampleRuntime.Now lateWorld) maxInt exampleAt
        = false ∧
      (exampleRuntime.Now (failingNext (some [1, 2]) lateWorld).2).IsZero = false ∧
      updateRequest exampleRuntime ⟨exampleAt, maxInt, workingStore⟩ failingNext (some [1, 2])
        lateWorld = some (-9223372036854775808, Time.mk 63721198862000000000) ∧
      ("/home/user/.wakatime-internal.cfg",
          [(keyRetries, "-9223372036854775808"), (keyAt, "63721198862000000000")]) ∈
        writes (WithBackoff exampleRuntime ⟨exampleAt, maxInt, workingStore⟩ failingNext
          (some [1, 2]) lateWorld).trace ∧
      ¬ ((-9223372036854775808 : Int) = 0 ∧
        (Time.mk 63721198862000000000).IsZero = true) ∧
      ¬ (1 ≤ (-9223372036854775808 : Int) ∧
        (Time.mk 63721198862000000000).IsZero = false) := by
  decide

end Wakatime.Backoff
